import Mathlib

/-!
# DNS stat keeper

A shallow embedding of `pkg/ebpf/dns_stats.go`: the keeper that pairs DNS responses
with their queries, accumulates per-flow statistics, sweeps expired queries and hands
the accumulated statistics over on request.

Modelling conventions.

* A Go `map[K]V` is an association list without duplicate keys (`AList`); `len(m)` is
  the number of its entries, `m[k]` with the comma-ok form is `AList.lookup`, a plain
  read `m[k]` yields the zero value of `V` when `k` is absent, `m[k] = v` is
  `AList.insert` and `delete(m, k)` is `AList.erase`.  The order of the entries
  stands for Go's unspecified iteration order; statements about a map compare it
  through `lookup` and `len` except where the code hands the very same map on.
* `uint32` and `uint64` fields are natural numbers and every arithmetic operation on
  them is reduced modulo `2^32` resp. `2^64` explicitly.  `uint16`, `uint8` values
  are natural numbers (no arithmetic is performed on them).  Go `int` is an integer.
* `time.Time` is an instant in integer nanoseconds; `Add` and `Before` are exact
  integer operations.  `time.Duration` is an `int64` number of nanoseconds, and `Sub`
  of two instants is their difference saturated at the smallest and the largest
  `Duration`, as in the Go library.
* The mutex and the exit channel carry no data and are not part of the state: every
  operation is the state transformer executed inside its critical section.

The file also embeds the test helper `AssertTagsEqual` of `pkg/metrics/test_helper.go`
(namespace `Metrics`): an assertion of `testify` is the condition it checks, and the
helper is the Boolean "no assertion has failed".
-/

namespace Metrics

/-- The helper `AssertTagsEqual`: `assert.Equal` on the two lengths and, when it holds,
`assert.Contains(actual, tag)` for every `tag` of `expected`.  The value is `true` when
no assertion fails. -/
def AssertTagsEqual (expected actual : List String) : Bool :=
  if expected.length = actual.length then
    expected.all (fun tag => actual.contains tag)
  else false

end Metrics

namespace DNSStats

/-- Modelled from the spec: `util.Address` is declared outside the files at hand; the
data model only asks for an immutable value that supports equality, so that a flow key
can be a map key. -/
abbrev Address := Nat

/-- Modelled from the spec: `ConnectionType` is declared outside the files at hand; the
data model gives the transport protocol of a flow as TCP or UDP. -/
inductive ConnectionType where
  | TCP
  | UDP
deriving DecidableEq, Repr

/-- An instant (`time.Time`), in integer nanoseconds. -/
abbrev Time := Int

/-- The smallest `time.Duration`, in nanoseconds: `-1 << 63`. -/
def minDuration : Int := -9223372036854775808

/-- The largest `time.Duration`, in nanoseconds: `1 << 63 - 1`. -/
def maxDuration : Int := 9223372036854775807

/-- A signed span of time (`time.Duration`): an `int64` number of nanoseconds.  Where an
integer is expected a duration stands for that number (its `Nanoseconds()`). -/
abbrev Duration := { ns : Int // minDuration ≤ ns ∧ ns ≤ maxDuration }

/-- The method `Sub` of `time.Time`: the duration `t - u`, and the largest or the
smallest duration when the difference is above or below the range of `Duration`. -/
def Time.Sub (t u : Time) : Duration :=
  if h1 : t - u > maxDuration then ⟨maxDuration, by decide, by decide⟩
  else if h2 : t - u < minDuration then ⟨minDuration, by decide, by decide⟩
  else ⟨t - u, not_lt.1 h2, not_lt.1 h1⟩

/-- A duration of one second. -/
def oneSecond : Duration := ⟨1000000000, by decide, by decide⟩

/-- The largest duration, about 292 years. -/
def longestPeriod : Duration := ⟨maxDuration, by decide, by decide⟩

/-- The `uint32` increment `x++`. -/
def incr32 (x : Nat) : Nat := (x + 1) % 2 ^ 32

/-- The `uint64` addition `x += y`. -/
def add64 (x y : Nat) : Nat := (x + y) % 2 ^ 64

/-- The conversion `uint64(x)` of a signed integer. -/
def toUint64 (x : Int) : Nat := (x % 2 ^ 64).toNat

/-- The record `dnsStats`; the zero value has every field `0`. -/
structure dnsStats where
  successfulResponses : Nat := 0
  failedResponses : Nat := 0
  successLatency : Nat := 0
  failureLatency : Nat := 0
  timeouts : Nat := 0
deriving DecidableEq, Repr

/-- The flow key `dnsKey`. -/
structure dnsKey where
  serverIP : Address
  clientIP : Address
  clientPort : Nat
  protocol : ConnectionType
deriving DecidableEq, Repr

/-- The packet type `DNSPacketType`, a `uint8`. -/
abbrev DNSPacketType := Nat

/-- The response code of the DNS reply is 0. -/
def SuccessfulResponse : DNSPacketType := 0

/-- The response code of the DNS reply is anything other than 0. -/
def FailedResponse : DNSPacketType := 1

/-- The packet is a query. -/
def Query : DNSPacketType := 2

/-- The record `dnsPacketInfo`. -/
structure dnsPacketInfo where
  transactionID : Nat
  key : dnsKey
  pktType : DNSPacketType
deriving DecidableEq, Repr

/-- The record `stateKey`: a flow together with a transaction id. -/
structure stateKey where
  key : dnsKey
  id : Nat
deriving DecidableEq, Repr

/-- The map type `map[dnsKey]dnsStats`. -/
abbrev StatsMap := AList (fun _ : dnsKey => dnsStats)

/-- The map type `map[stateKey]time.Time`. -/
abbrev StateMap := AList (fun _ : stateKey => Time)

/-- The Go builtin `len` on a map. -/
def len {α : Type} {β : α → Type} (m : AList β) : Int := (m.entries.length : Int)

/-- The plain read `stats[k]`: the zero value when `k` has no entry. -/
def statsAt (m : StatsMap) (k : dnsKey) : dnsStats := (m.lookup k).getD {}

/-- The record `dnsStatKeeper`, without its mutex and its exit channel. -/
structure dnsStatKeeper where
  stats : StatsMap
  state : StateMap
  expirationPeriod : Duration
  maxSize : Int
  deleteCount : Int
  deleteThreshold : Int
deriving DecidableEq

/-- The constructor `newDNSStatkeeper`: the record it fills in, without the ticker it
then starts (see `tick`).  `time.NewTicker` panics for a `timeout` that is not
positive, so the keepers the code hands out are those with `timeout > 0`. -/
def newDNSStatkeeper (timeout : Duration) : dnsStatKeeper :=
  { stats := ∅
    state := ∅
    expirationPeriod := timeout
    maxSize := 10000
    deleteCount := 0
    deleteThreshold := 5000 }

/-- The statistics update of `ProcessPacketInfo` for a response that matched a query
which arrived at `start`; `expirationPeriod` is `d.expirationPeriod.Nanoseconds()`. -/
def recordResponse (expirationPeriod : Int) (pktType : DNSPacketType)
    (ts start : Time) (stats : dnsStats) : dnsStats :=
  let latency : Int := (Time.Sub ts start).val
  if latency > expirationPeriod then
    { stats with timeouts := incr32 stats.timeouts }
  else
    let latency : Int := Int.tdiv latency 1000
    if pktType = SuccessfulResponse then
      { stats with
        successfulResponses := incr32 stats.successfulResponses
        successLatency := add64 stats.successLatency (toUint64 latency) }
    else if pktType = FailedResponse then
      { stats with
        failedResponses := incr32 stats.failedResponses
        failureLatency := add64 stats.failureLatency (toUint64 latency) }
    else stats

/-- The method `ProcessPacketInfo`. -/
def ProcessPacketInfo (d : dnsStatKeeper) (info : dnsPacketInfo) (ts : Time) :
    dnsStatKeeper :=
  let sk : stateKey := { key := info.key, id := info.transactionID }
  if info.pktType = Query then
    if len d.state = d.maxSize then d
    else
      match d.state.lookup sk with
      | some _ => d
      | none => { d with state := d.state.insert sk ts }
  else
    match d.state.lookup sk with
    | none => d
    | some start =>
      { d with
        state := d.state.erase sk
        deleteCount := d.deleteCount + 1
        stats := d.stats.insert info.key
          (recordResponse d.expirationPeriod.val info.pktType ts start
            (statsAt d.stats info.key)) }

/-- The method `GetAndResetAllStats`: the returned map and the keeper afterwards. -/
def GetAndResetAllStats (d : dnsStatKeeper) : StatsMap × dnsStatKeeper :=
  (d.stats, { d with stats := ∅ })

/-- One round of the first loop of `removeExpiredStates`, at the entry `e`. -/
def expireEntry (earliestTs : Time) (d : dnsStatKeeper)
    (e : Sigma (fun _ : stateKey => Time)) : dnsStatKeeper :=
  if e.2 < earliestTs then
    let stats := statsAt d.stats e.1.key
    { d with
      state := d.state.erase e.1
      deleteCount := d.deleteCount + 1
      stats := d.stats.insert e.1.key { stats with timeouts := incr32 stats.timeouts } }
  else d

/-- The first loop of `removeExpiredStates`.  The loop deletes nothing but the entry
it is at, so it visits exactly the entries present when it starts. -/
def expireLoop (earliestTs : Time) (d : dnsStatKeeper) : dnsStatKeeper :=
  d.state.entries.foldl (expireEntry earliestTs) d

/-- The second loop of `removeExpiredStates`: copy every entry into a fresh map. -/
def copyState (m : StateMap) : StateMap :=
  m.entries.foldl (fun copied e => copied.insert e.1 e.2) ∅

/-- The method `removeExpiredStates`. -/
def removeExpiredStates (d : dnsStatKeeper) (earliestTs : Time) : dnsStatKeeper :=
  let d1 := expireLoop earliestTs d
  if d1.deleteCount < d1.deleteThreshold then d1
  else { d1 with state := copyState d1.state, deleteCount := 0 }

/-- What the ticker started by `newDNSStatkeeper` does when it fires at `now`.  The
ticker exists for a positive period only, whose negation is again a duration. -/
def tick (d : dnsStatKeeper) (now : Time) : dnsStatKeeper :=
  removeExpiredStates d (now + -d.expirationPeriod.val)

/-- A call that ingests a packet or sweeps the store. -/
inductive Call where
  | process (info : dnsPacketInfo) (ts : Time)
  | sweep (earliestTs : Time)
deriving DecidableEq

/-- The keeper after one ingestion or sweep. -/
def Call.apply (d : dnsStatKeeper) : Call → dnsStatKeeper
  | .process info ts => ProcessPacketInfo d info ts
  | .sweep earliestTs => removeExpiredStates d earliestTs

/-- The keeper after a sequence of ingestions and sweeps, first to last. -/
def runCalls (d : dnsStatKeeper) (calls : List Call) : dnsStatKeeper :=
  calls.foldl Call.apply d

/-- A call of one of the three operations of the keeper. -/
inductive Op where
  | call (c : Call)
  | drain
deriving DecidableEq

/-- The keeper after one operation. -/
def Op.apply (d : dnsStatKeeper) : Op → dnsStatKeeper
  | .call c => c.apply d
  | .drain => (GetAndResetAllStats d).2

/-- The keeper after a sequence of operations, first to last. -/
def runOps (d : dnsStatKeeper) (ops : List Op) : dnsStatKeeper := ops.foldl Op.apply d

/-- Field by field addition of two statistics records, in the width of each field. -/
def addStats (a b : dnsStats) : dnsStats :=
  { successfulResponses := (a.successfulResponses + b.successfulResponses) % 2 ^ 32
    failedResponses := (a.failedResponses + b.failedResponses) % 2 ^ 32
    successLatency := (a.successLatency + b.successLatency) % 2 ^ 64
    failureLatency := (a.failureLatency + b.failureLatency) % 2 ^ 64
    timeouts := (a.timeouts + b.timeouts) % 2 ^ 32 }

/-- Every field of the record is a value of its Go type. -/
abbrev dnsStats.inRange (s : dnsStats) : Prop :=
  s.successfulResponses < 2 ^ 32 ∧ s.failedResponses < 2 ^ 32 ∧
  s.successLatency < 2 ^ 64 ∧ s.failureLatency < 2 ^ 64 ∧ s.timeouts < 2 ^ 32

/-- Every record held by the statistics map is a value of its Go type. -/
abbrev StatsInRange (m : StatsMap) : Prop := ∀ e ∈ m.entries, e.2.inRange

/-- The number of entries of `l` for the flow `F` that arrived before `earliestTs`. -/
def expiredOf (earliestTs : Time) (F : dnsKey)
    (l : List (Sigma (fun _ : stateKey => Time))) : Nat :=
  l.countP (fun e => decide (e.2 < earliestTs) && decide (e.1.key = F))

/-- The number of entries of `l` that arrived before `earliestTs`. -/
def expiredCount (earliestTs : Time) (l : List (Sigma (fun _ : stateKey => Time))) : Nat :=
  l.countP (fun e => decide (e.2 < earliestTs))

/-- A query for `(F, id)` processed at `t0`, then a packet of type `pktType` for the
same flow and transaction processed at `t1`. -/
def queryThenResponse (d : dnsStatKeeper) (F : dnsKey) (id : Nat) (pktType : DNSPacketType)
    (t0 t1 : Time) : dnsStatKeeper :=
  ProcessPacketInfo (ProcessPacketInfo d ⟨id, F, Query⟩ t0) ⟨id, F, pktType⟩ t1

/-- A flow used in the examples. -/
def flowF : dnsKey := { serverIP := 8, clientIP := 10, clientPort := 5353, protocol := .UDP }

/-- The keeper of the capacity example: `maxSize = 2`, queries 1 and 2 of `flowF`
accepted at times 10 and 20. -/
def twoPending : dnsStatKeeper :=
  ProcessPacketInfo
    (ProcessPacketInfo { newDNSStatkeeper oneSecond with maxSize := 2 } ⟨1, flowF, Query⟩ 10)
    ⟨2, flowF, Query⟩ 20

/-- The entries the specification calls surviving a sweep with cut-off `earliestTs`:
those of `m` whose arrival time is not before `earliestTs`, in the order of `m`. -/
def survivingEntries (earliestTs : Time) (m : StateMap) :
    List (Sigma (fun _ : stateKey => Time)) :=
  m.entries.filter (fun e => !decide (e.2 < earliestTs))

/-- The relation between a keeper that was not drained (`whole`) and one that was
(`split`) after the same calls: they differ in the statistics only, and the statistics
of `whole` are those of `split` added to what the drain took away (`base`). -/
def DrainSim (base : dnsKey → dnsStats) (whole split : dnsStatKeeper) : Prop :=
  whole.state = split.state ∧ whole.deleteCount = split.deleteCount ∧
  whole.expirationPeriod = split.expirationPeriod ∧ whole.maxSize = split.maxSize ∧
  whole.deleteThreshold = split.deleteThreshold ∧
  ∀ F, statsAt whole.stats F = addStats (base F) (statsAt split.stats F)

/-- The keeper of the latency example: `expirationPeriod` one second, query 1 of `flowF`
at 0 ms answered successfully at 100 ms. -/
def answeredOnce : dnsStatKeeper :=
  queryThenResponse (newDNSStatkeeper oneSecond) flowF 1 SuccessfulResponse 0 100000000

/-- Field by field comparison of two statistics records. -/
abbrev dnsStats.le (a b : dnsStats) : Prop :=
  a.successfulResponses ≤ b.successfulResponses ∧ a.failedResponses ≤ b.failedResponses ∧
  a.successLatency ≤ b.successLatency ∧ a.failureLatency ≤ b.failureLatency ∧
  a.timeouts ≤ b.timeouts

/-- No addition that `recordResponse` performs on `stats` overflows its field; the
case distinction is the one of `recordResponse`. -/
abbrev recordFits (expirationPeriod : Int) (pktType : DNSPacketType)
    (ts start : Time) (stats : dnsStats) : Prop :=
  if (Time.Sub ts start).val > expirationPeriod then stats.timeouts + 1 < 2 ^ 32
  else if pktType = SuccessfulResponse then
    stats.successfulResponses + 1 < 2 ^ 32 ∧
    stats.successLatency + toUint64 (Int.tdiv (Time.Sub ts start).val 1000) < 2 ^ 64
  else if pktType = FailedResponse then
    stats.failedResponses + 1 < 2 ^ 32 ∧
    stats.failureLatency + toUint64 (Int.tdiv (Time.Sub ts start).val 1000) < 2 ^ 64
  else True

/-- A keeper reached from the constructor: query 1 of `flowF` at 1000 ns answered at
4000 ns (3 µs), then query 2 of `flowF` at 5000 ns, still pending. -/
def threeMicros : dnsStatKeeper :=
  ProcessPacketInfo
    (queryThenResponse (newDNSStatkeeper oneSecond) flowF 1 SuccessfulResponse 1000 4000)
    ⟨2, flowF, Query⟩ 5000

/-- A keeper whose `timeouts` counter for `flowF` is at the largest `uint32`, with one
query of `flowF` pending since 0. -/
def timeoutsAtMax : dnsStatKeeper :=
  { newDNSStatkeeper oneSecond with
    stats := AList.insert flowF { timeouts := 4294967295 } ∅
    state := AList.insert ⟨flowF, 1⟩ 0 ∅ }

/-- The number of queries the record accounts for: responses counted as success or
failure, and timeouts. -/
def dnsStats.outcomes (s : dnsStats) : Nat :=
  s.successfulResponses + s.failedResponses + s.timeouts

/-- The sum of `outcomes` over all flows of a statistics map. -/
def totalOutcomes (m : StatsMap) : Nat := (m.entries.map (fun e => e.2.outcomes)).sum

/-- The number of queries a keeper accounts for: the outcomes counted for all flows plus
the number of pending entries. -/
def accounted (d : dnsStatKeeper) : Nat := totalOutcomes d.stats + d.state.entries.length

/-- No count of the record is at the largest `uint32`. -/
abbrev countsFit (s : dnsStats) : Prop :=
  s.successfulResponses + 1 < 2 ^ 32 ∧ s.failedResponses + 1 < 2 ^ 32 ∧
  s.timeouts + 1 < 2 ^ 32

/-- The packet of an ingestion has one of the three declared types. -/
abbrev Call.known : Call → Prop
  | .process info _ =>
    info.pktType = Query ∨ info.pktType = SuccessfulResponse ∨ info.pktType = FailedResponse
  | .sweep _ => True

/-- Whether a call is `known` can be computed. -/
instance Call.decKnown : (c : Call) → Decidable c.known
  | .process info _ =>
    inferInstanceAs (Decidable (info.pktType = Query ∨
      info.pktType = SuccessfulResponse ∨ info.pktType = FailedResponse))
  | .sweep _ => inferInstanceAs (Decidable True)

/-- 1 when the call is a query that `ProcessPacketInfo` inserts into the store of `d`
(the store is not at `maxSize` and the key is not pending), 0 otherwise. -/
def accepted (d : dnsStatKeeper) : Call → Nat
  | .process info _ =>
    if info.pktType = Query ∧ len d.state ≠ d.maxSize ∧
        d.state.lookup ⟨info.key, info.transactionID⟩ = none then 1 else 0
  | .sweep _ => 0

/-- The number of queries accepted along a sequence of calls started in `d`. -/
def acceptedQueries (d : dnsStatKeeper) : List Call → Nat
  | [] => 0
  | c :: calls => accepted d c + acceptedQueries (c.apply d) calls

/-- A run from the constructor: query 1 answered, query 2 asked twice and swept, query 3
left pending. -/
def sampleRun : List Call :=
  [Call.process ⟨1, flowF, Query⟩ 0,
    Call.process ⟨1, flowF, SuccessfulResponse⟩ 100000000,
    Call.process ⟨2, flowF, Query⟩ 200000000,
    Call.process ⟨2, flowF, Query⟩ 250000000,
    Call.sweep 2000000000,
    Call.process ⟨3, flowF, Query⟩ 3000000000]

/-- A keeper reached from the constructor: `expirationPeriod` is the largest duration
and query 1 of `flowF` is pending since `-5 * 10^18` ns. -/
def farApart : dnsStatKeeper :=
  ProcessPacketInfo (newDNSStatkeeper longestPeriod) ⟨1, flowF, Query⟩ (-5000000000000000000)

/-! ## The cases of `ProcessPacketInfo` -/

theorem process_query_full (d : dnsStatKeeper) (info : dnsPacketInfo) (ts : Time)
    (hq : info.pktType = Query) (hfull : len d.state = d.maxSize) :
    ProcessPacketInfo d info ts = d := by
  simp [ProcessPacketInfo, hq, hfull]

theorem process_query_pending (d : dnsStatKeeper) (info : dnsPacketInfo) (ts t0 : Time)
    (hq : info.pktType = Query)
    (hp : d.state.lookup ⟨info.key, info.transactionID⟩ = some t0) :
    ProcessPacketInfo d info ts = d := by
  simp [ProcessPacketInfo, hq, hp]

theorem process_query_accept (d : dnsStatKeeper) (info : dnsPacketInfo) (ts : Time)
    (hq : info.pktType = Query) (hroom : len d.state ≠ d.maxSize)
    (hp : d.state.lookup ⟨info.key, info.transactionID⟩ = none) :
    ProcessPacketInfo d info ts =
      { d with state := d.state.insert ⟨info.key, info.transactionID⟩ ts } := by
  simp [ProcessPacketInfo, hq, hp, hroom]

theorem process_response_unmatched (d : dnsStatKeeper) (info : dnsPacketInfo) (ts : Time)
    (hq : info.pktType ≠ Query)
    (hp : d.state.lookup ⟨info.key, info.transactionID⟩ = none) :
    ProcessPacketInfo d info ts = d := by
  simp [ProcessPacketInfo, hq, hp]

theorem process_response_matched (d : dnsStatKeeper) (info : dnsPacketInfo) (ts start : Time)
    (hq : info.pktType ≠ Query)
    (hp : d.state.lookup ⟨info.key, info.transactionID⟩ = some start) :
    ProcessPacketInfo d info ts =
      { d with
        state := d.state.erase ⟨info.key, info.transactionID⟩
        deleteCount := d.deleteCount + 1
        stats := d.stats.insert info.key
          (recordResponse d.expirationPeriod info.pktType ts start
            (statsAt d.stats info.key)) } := by
  simp [ProcessPacketInfo, hq, hp]

theorem toUint64_of_nonneg (x : Int) (hx : 0 ≤ x) : toUint64 x = x.toNat % 2 ^ 64 := by
  unfold toUint64
  omega

theorem Sub_val (t u : Int) :
    (Time.Sub t u).val =
      if t - u > maxDuration then maxDuration
      else if t - u < minDuration then minDuration else t - u := by
  unfold Time.Sub
  split
  · rfl
  · split <;> rfl

theorem Sub_val_of_range (t u : Int) (h1 : minDuration ≤ t - u) (h2 : t - u ≤ maxDuration) :
    (Time.Sub t u).val = t - u := by
  rw [Sub_val, if_neg (not_lt.2 h2), if_neg (not_lt.2 h1)]

theorem Sub_val_gt (t u e : Int) (hlate : t - u > e)
    (hsat : e < maxDuration ∨ t - u ≤ maxDuration) : (Time.Sub t u).val > e := by
  rw [Sub_val]
  simp only [minDuration, maxDuration] at *
  split_ifs <;> omega

theorem Sub_val_not_gt (t u e : Int) (hwin : ¬ t - u > e) (hdur : minDuration ≤ e) :
    ¬ (Time.Sub t u).val > e := by
  rw [Sub_val]
  simp only [minDuration, maxDuration] at *
  split_ifs <;> omega

theorem recordResponse_late (expirationPeriod : Int) (pktType : DNSPacketType)
    (ts start : Int) (stats : dnsStats)
    (hlate : (Time.Sub ts start).val > expirationPeriod) :
    recordResponse expirationPeriod pktType ts start stats =
      { stats with timeouts := (stats.timeouts + 1) % 2 ^ 32 } := by
  simp [recordResponse, hlate, incr32]

theorem recordResponse_success (expirationPeriod : Int) (ts start : Int)
    (stats : dnsStats) (hle : start ≤ ts) (hwin : ts - start ≤ expirationPeriod)
    (hmax : expirationPeriod ≤ maxDuration) :
    recordResponse expirationPeriod SuccessfulResponse ts start stats =
      { stats with
        successfulResponses := (stats.successfulResponses + 1) % 2 ^ 32
        successLatency := (stats.successLatency + ((ts - start) / 1000).toNat) % 2 ^ 64 } := by
  have h0 : (0 : Int) ≤ ts - start := by omega
  have hsub : (Time.Sub ts start).val = ts - start :=
    Sub_val_of_range ts start (by simp only [minDuration]; omega) (by omega)
  have h1 : ¬ ts - start > expirationPeriod := by omega
  have h2 : Int.tdiv (ts - start) 1000 = (ts - start) / 1000 :=
    Int.tdiv_eq_ediv h0 (by decide)
  have h3 : 0 ≤ (ts - start) / 1000 := by omega
  simp only [recordResponse, hsub, h1, if_false, if_true, h2, incr32, add64,
    toUint64_of_nonneg _ h3]
  congr 1
  omega

theorem recordResponse_failure (expirationPeriod : Int) (ts start : Int)
    (stats : dnsStats) (hle : start ≤ ts) (hwin : ts - start ≤ expirationPeriod)
    (hmax : expirationPeriod ≤ maxDuration) :
    recordResponse expirationPeriod FailedResponse ts start stats =
      { stats with
        failedResponses := (stats.failedResponses + 1) % 2 ^ 32
        failureLatency := (stats.failureLatency + ((ts - start) / 1000).toNat) % 2 ^ 64 } := by
  have h0 : (0 : Int) ≤ ts - start := by omega
  have hsub : (Time.Sub ts start).val = ts - start :=
    Sub_val_of_range ts start (by simp only [minDuration]; omega) (by omega)
  have h1 : ¬ ts - start > expirationPeriod := by omega
  have h2 : Int.tdiv (ts - start) 1000 = (ts - start) / 1000 :=
    Int.tdiv_eq_ediv h0 (by decide)
  have h3 : 0 ≤ (ts - start) / 1000 := by omega
  have h4 : FailedResponse ≠ SuccessfulResponse := by decide
  simp only [recordResponse, hsub, h1, if_false, if_true, h2, h4, incr32, add64,
    toUint64_of_nonneg _ h3]
  congr 1
  omega

/-! ## The sweep -/

theorem kerase_eq_filter {β : Type} (a : stateKey) :
    ∀ (l : List (Sigma (fun _ : stateKey => β))), l.NodupKeys →
      List.kerase a l = l.filter (fun e => !decide (a = e.1))
  | [], _ => rfl
  | s :: l, h => by
    have hl := List.nodupKeys_of_nodupKeys_cons h
    have hs : s.1 ∉ l.keys := (List.nodupKeys_cons.1 h).1
    by_cases hk : a = s.1
    · rw [List.kerase_cons_eq hk, List.filter_cons_of_neg (by simp [hk])]
      symm
      rw [List.filter_eq_self]
      intro e he
      have : e.1 ≠ s.1 := fun h1 => hs (h1 ▸ List.mem_keys_of_mem he)
      simp [hk, Ne.symm this]
    · rw [List.kerase_cons_ne hk, List.filter_cons_of_pos (by simp [hk]),
        kerase_eq_filter a l hl]

theorem foldl_expireEntry_entries (earliestTs : Time) :
    ∀ (l : List (Sigma (fun _ : stateKey => Time))) (d : dnsStatKeeper),
      (l.foldl (expireEntry earliestTs) d).state.entries =
        d.state.entries.filter (fun x =>
          !(l.any (fun e => decide (e.2 < earliestTs) && decide (e.1 = x.1))))
  | [], d => by simp
  | e :: l, d => by
    rw [List.foldl_cons, foldl_expireEntry_entries earliestTs l]
    by_cases hexp : e.2 < earliestTs
    · have h1 : (expireEntry earliestTs d e).state.entries =
          List.kerase e.1 d.state.entries := by
        simp [expireEntry, hexp, AList.erase]
      rw [h1, kerase_eq_filter e.1 _ d.state.nodupKeys, List.filter_filter]
      apply List.filter_congr
      intro x _
      simp [hexp, Bool.and_comm]
    · have h1 : expireEntry earliestTs d e = d := by simp [expireEntry, hexp]
      rw [h1]
      apply List.filter_congr
      intro x _
      simp [hexp]

theorem expireLoop_entries (earliestTs : Time) (d : dnsStatKeeper) :
    (expireLoop earliestTs d).state.entries =
      d.state.entries.filter (fun e => !decide (e.2 < earliestTs)) := by
  rw [expireLoop, foldl_expireEntry_entries]
  apply List.filter_congr
  intro x hx
  by_cases hexp : x.2 < earliestTs
  · have : (d.state.entries.any
        (fun e => decide (e.2 < earliestTs) && decide (e.1 = x.1))) = true :=
      List.any_eq_true.2 ⟨x, hx, by simp [hexp]⟩
    simp [this, hexp]
  · have : (d.state.entries.any
        (fun e => decide (e.2 < earliestTs) && decide (e.1 = x.1))) = false := by
      rw [List.any_eq_false]
      intro e he
      by_cases hk : e.1 = x.1
      · have := d.state.nodupKeys.eq_of_fst_eq he hx hk
        subst this
        simp [hexp]
      · simp [hk]
    simp [this, hexp]

theorem foldl_insert_entries :
    ∀ (l : List (Sigma (fun _ : stateKey => Time))) (acc : StateMap),
      l.NodupKeys → (∀ e ∈ l, e.1 ∉ acc) →
      (l.foldl (fun copied e => copied.insert e.1 e.2) acc).entries =
        l.reverse ++ acc.entries
  | [], acc, _, _ => by simp
  | e :: l, acc, h, hdis => by
    have hl := List.nodupKeys_of_nodupKeys_cons h
    have hs : e.1 ∉ l.keys := (List.nodupKeys_cons.1 h).1
    have he : e.1 ∉ acc := hdis e (List.mem_cons_self _ _)
    rw [List.foldl_cons, foldl_insert_entries l _ hl, AList.insert_entries_of_neg he]
    · simp
    · intro x hx
      rw [AList.mem_insert]
      rintro (h1 | h1)
      · exact hs (h1 ▸ List.mem_keys_of_mem hx)
      · exact hdis x (List.mem_cons_of_mem _ hx) h1

theorem copyState_entries (m : StateMap) : (copyState m).entries = m.entries.reverse := by
  rw [copyState, foldl_insert_entries m.entries ∅ m.nodupKeys (fun _ _ => AList.not_mem_empty _)]
  simp

theorem copyState_lookup (m : StateMap) (k : stateKey) :
    (copyState m).lookup k = m.lookup k := by
  apply AList.perm_lookup
  rw [copyState_entries]
  exact List.reverse_perm _

theorem len_copyState (m : StateMap) : len (copyState m) = len m := by
  simp [len, copyState_entries]

theorem removeExpiredStates_stats (d : dnsStatKeeper) (earliestTs : Time) :
    (removeExpiredStates d earliestTs).stats = (expireLoop earliestTs d).stats := by
  unfold removeExpiredStates
  simp only []
  split <;> rfl

theorem removeExpiredStates_perm (d : dnsStatKeeper) (earliestTs : Time) :
    List.Perm (removeExpiredStates d earliestTs).state.entries
      (d.state.entries.filter (fun e => !decide (e.2 < earliestTs))) := by
  rw [← expireLoop_entries]
  unfold removeExpiredStates
  simp only []
  split
  · exact List.Perm.refl _
  · show List.Perm (copyState _).entries _
    rw [copyState_entries]
    exact List.reverse_perm _

theorem removeExpiredStates_lookup (d : dnsStatKeeper) (earliestTs : Time) (k : stateKey)
    (t : Time) :
    (removeExpiredStates d earliestTs).state.lookup k = some t ↔
      d.state.lookup k = some t ∧ ¬ t < earliestTs := by
  have h1 : (removeExpiredStates d earliestTs).state.lookup k = some t ↔
      (⟨k, t⟩ : Sigma (fun _ : stateKey => Time)) ∈
        (removeExpiredStates d earliestTs).state.entries := AList.mem_lookup_iff
  have h2 : d.state.lookup k = some t ↔
      (⟨k, t⟩ : Sigma (fun _ : stateKey => Time)) ∈ d.state.entries := AList.mem_lookup_iff
  rw [h1, h2, (removeExpiredStates_perm d earliestTs).mem_iff, List.mem_filter]
  simp

theorem len_removeExpiredStates_le (d : dnsStatKeeper) (earliestTs : Time) :
    len (removeExpiredStates d earliestTs).state ≤ len d.state := by
  unfold len
  rw [(removeExpiredStates_perm d earliestTs).length_eq]
  exact_mod_cast List.length_filter_le _ _

theorem foldl_expireEntry_stats (earliestTs : Time) (F : dnsKey) :
    ∀ (l : List (Sigma (fun _ : stateKey => Time))) (d : dnsStatKeeper),
      (l.foldl (expireEntry earliestTs) d).stats.lookup F =
        if expiredOf earliestTs F l = 0 then d.stats.lookup F
        else some { statsAt d.stats F with
          timeouts := ((statsAt d.stats F).timeouts + expiredOf earliestTs F l) % 2 ^ 32 }
  | [], d => by simp [expiredOf]
  | e :: l, d => by
    rw [List.foldl_cons, foldl_expireEntry_stats earliestTs F l]
    by_cases hexp : e.2 < earliestTs
    · by_cases hk : e.1.key = F
      · have hn : expiredOf earliestTs F (e :: l) = expiredOf earliestTs F l + 1 := by
          simp [expiredOf, List.countP_cons, hexp, hk]
        have hl : (expireEntry earliestTs d e).stats.lookup F = some
            { statsAt d.stats F with timeouts := ((statsAt d.stats F).timeouts + 1) % 2 ^ 32 } := by
          simp [expireEntry, hexp, hk, incr32]
        have hs : statsAt (expireEntry earliestTs d e).stats F =
            { statsAt d.stats F with timeouts := ((statsAt d.stats F).timeouts + 1) % 2 ^ 32 } := by
          rw [statsAt, hl]; rfl
        rw [hn, hl, hs]
        by_cases h0 : expiredOf earliestTs F l = 0
        · simp [h0]
        · simp only [h0, if_false, Nat.succ_ne_zero, Option.some.injEq]
          congr 1
          omega
      · have hn : expiredOf earliestTs F (e :: l) = expiredOf earliestTs F l := by
          simp [expiredOf, List.countP_cons, hk]
        have hl : (expireEntry earliestTs d e).stats.lookup F = d.stats.lookup F := by
          simp [expireEntry, hexp, AList.lookup_insert_ne (Ne.symm hk)]
        have hs : statsAt (expireEntry earliestTs d e).stats F = statsAt d.stats F := by
          rw [statsAt, hl]; rfl
        rw [hn, hl, hs]
    · have hn : expiredOf earliestTs F (e :: l) = expiredOf earliestTs F l := by
        simp [expiredOf, List.countP_cons, hexp]
      have h1 : expireEntry earliestTs d e = d := by simp [expireEntry, hexp]
      rw [hn, h1]

theorem foldl_expireEntry_config (earliestTs : Time) :
    ∀ (l : List (Sigma (fun _ : stateKey => Time))) (d : dnsStatKeeper),
      (l.foldl (expireEntry earliestTs) d).expirationPeriod = d.expirationPeriod ∧
      (l.foldl (expireEntry earliestTs) d).maxSize = d.maxSize ∧
      (l.foldl (expireEntry earliestTs) d).deleteThreshold = d.deleteThreshold ∧
      (l.foldl (expireEntry earliestTs) d).deleteCount =
        d.deleteCount + (expiredCount earliestTs l : Int)
  | [], d => by simp [expiredCount]
  | e :: l, d => by
    rw [List.foldl_cons]
    obtain ⟨h1, h2, h3, h4⟩ := foldl_expireEntry_config earliestTs l (expireEntry earliestTs d e)
    rw [h1, h2, h3, h4]
    by_cases hexp : e.2 < earliestTs
    · simp [expireEntry, hexp, expiredCount, List.countP_cons]
      omega
    · simp [expireEntry, hexp, expiredCount, List.countP_cons]

theorem removeExpiredStates_config (d : dnsStatKeeper) (earliestTs : Time) :
    (removeExpiredStates d earliestTs).expirationPeriod = d.expirationPeriod ∧
    (removeExpiredStates d earliestTs).maxSize = d.maxSize ∧
    (removeExpiredStates d earliestTs).deleteThreshold = d.deleteThreshold := by
  obtain ⟨h1, h2, h3, _⟩ := foldl_expireEntry_config earliestTs d.state.entries d
  unfold removeExpiredStates
  simp only []
  split
  · exact ⟨h1, h2, h3⟩
  · exact ⟨h1, h2, h3⟩

/-! ## The size of the store -/

theorem len_insert_of_lookup_none (m : StateMap) (k : stateKey) (t : Time)
    (h : m.lookup k = none) : len (m.insert k t) = len m + 1 := by
  have hk : k ∉ m := AList.lookup_eq_none.1 h
  rw [len, len, AList.insert_entries_of_neg hk]
  simp

theorem len_erase_le (m : StateMap) (k : stateKey) : len (m.erase k) ≤ len m := by
  unfold len
  exact_mod_cast (List.kerase_sublist k m.entries).length_le

theorem len_ProcessPacketInfo_le (d : dnsStatKeeper) (info : dnsPacketInfo) (ts : Time)
    (hcap : len d.state ≤ d.maxSize) :
    len (ProcessPacketInfo d info ts).state ≤ d.maxSize ∧
    (ProcessPacketInfo d info ts).maxSize = d.maxSize := by
  by_cases hq : info.pktType = Query
  · by_cases hfull : len d.state = d.maxSize
    · rw [process_query_full d info ts hq hfull]; exact ⟨hcap, rfl⟩
    · cases hp : d.state.lookup ⟨info.key, info.transactionID⟩ with
      | none =>
        rw [process_query_accept d info ts hq hfull hp]
        refine ⟨?_, rfl⟩
        show len (d.state.insert _ ts) ≤ d.maxSize
        rw [len_insert_of_lookup_none _ _ _ hp]
        omega
      | some t0 =>
        rw [process_query_pending d info ts t0 hq hp]; exact ⟨hcap, rfl⟩
  · cases hp : d.state.lookup ⟨info.key, info.transactionID⟩ with
    | none => rw [process_response_unmatched d info ts hq hp]; exact ⟨hcap, rfl⟩
    | some t0 =>
      rw [process_response_matched d info ts t0 hq hp]
      refine ⟨?_, rfl⟩
      show len (d.state.erase _) ≤ d.maxSize
      exact le_trans (len_erase_le _ _) hcap

theorem len_apply_le (d : dnsStatKeeper) (op : Op) (hcap : len d.state ≤ d.maxSize) :
    len (op.apply d).state ≤ d.maxSize ∧ (op.apply d).maxSize = d.maxSize := by
  cases op with
  | call c =>
    cases c with
    | process info ts => exact len_ProcessPacketInfo_le d info ts hcap
    | sweep earliestTs =>
      exact ⟨le_trans (len_removeExpiredStates_le d earliestTs) hcap,
        (removeExpiredStates_config d earliestTs).2.1⟩
  | drain => exact ⟨hcap, rfl⟩

theorem len_runOps_le :
    ∀ (ops : List Op) (d : dnsStatKeeper), len d.state ≤ d.maxSize →
      len (runOps d ops).state ≤ d.maxSize ∧ (runOps d ops).maxSize = d.maxSize
  | [], _, hcap => ⟨hcap, rfl⟩
  | op :: ops, d, hcap => by
    obtain ⟨h1, h2⟩ := len_apply_le d op hcap
    have ih := len_runOps_le ops (op.apply d) (h2 ▸ h1)
    rw [h2] at ih
    exact ih

/-! ## The sweep does not look at the deletion count -/

theorem foldl_expireEntry_congr (earliestTs : Time) :
    ∀ (l : List (Sigma (fun _ : stateKey => Time))) (d e : dnsStatKeeper),
      d.state = e.state → d.stats = e.stats →
      (l.foldl (expireEntry earliestTs) d).state = (l.foldl (expireEntry earliestTs) e).state ∧
      (l.foldl (expireEntry earliestTs) d).stats = (l.foldl (expireEntry earliestTs) e).stats
  | [], _, _, h1, h2 => ⟨h1, h2⟩
  | x :: l, d, e, h1, h2 => by
    rw [List.foldl_cons, List.foldl_cons]
    apply foldl_expireEntry_congr earliestTs l
    · by_cases hexp : x.2 < earliestTs <;> simp [expireEntry, hexp, h1]
    · by_cases hexp : x.2 < earliestTs <;> simp [expireEntry, hexp, h2]

theorem expireLoop_congr (earliestTs : Time) (d e : dnsStatKeeper)
    (h1 : d.state = e.state) (h2 : d.stats = e.stats) :
    (expireLoop earliestTs d).state = (expireLoop earliestTs e).state ∧
    (expireLoop earliestTs d).stats = (expireLoop earliestTs e).stats := by
  unfold expireLoop
  rw [h1]
  exact foldl_expireEntry_congr earliestTs _ d e h1 h2

theorem removeExpiredStates_lookup_eq (d : dnsStatKeeper) (earliestTs : Time) (k : stateKey) :
    (removeExpiredStates d earliestTs).state.lookup k =
      (expireLoop earliestTs d).state.lookup k := by
  unfold removeExpiredStates
  simp only []
  split
  · rfl
  · exact copyState_lookup _ k

theorem len_removeExpiredStates (d : dnsStatKeeper) (earliestTs : Time) :
    len (removeExpiredStates d earliestTs).state = len (expireLoop earliestTs d).state := by
  unfold removeExpiredStates
  simp only []
  split
  · rfl
  · exact len_copyState _

/-! ## Statistics before and after a drain -/

theorem statsAt_insert (m : StatsMap) (K F : dnsKey) (v : dnsStats) :
    statsAt (m.insert K v) F = if F = K then v else statsAt m F := by
  by_cases h : F = K
  · subst h
    simp [statsAt, AList.lookup_insert]
  · simp [statsAt, AList.lookup_insert_ne h, h]

theorem statsAt_empty (F : dnsKey) : statsAt ∅ F = {} := by
  simp [statsAt]

theorem addStats_zero (a : dnsStats) (h : a.inRange) : addStats a {} = a := by
  obtain ⟨h1, h2, h3, h4, h5⟩ := h
  cases a
  simp only [addStats, Nat.add_zero, dnsStats.mk.injEq]
  simp only [] at h1 h2 h3 h4 h5
  exact ⟨Nat.mod_eq_of_lt h1, Nat.mod_eq_of_lt h2, Nat.mod_eq_of_lt h3, Nat.mod_eq_of_lt h4,
    Nat.mod_eq_of_lt h5⟩

theorem recordResponse_addStats (expirationPeriod : Int) (pktType : DNSPacketType)
    (ts start : Int) (b x : dnsStats) :
    recordResponse expirationPeriod pktType ts start (addStats b x) =
      addStats b (recordResponse expirationPeriod pktType ts start x) := by
  unfold recordResponse
  simp only []
  split_ifs <;> simp only [addStats, incr32, add64, dnsStats.mk.injEq, and_true, true_and] <;>
    (try constructor) <;> omega

theorem bumpTimeouts_addStats (b x : dnsStats) :
    { addStats b x with timeouts := incr32 (addStats b x).timeouts } =
      addStats b { x with timeouts := incr32 x.timeouts } := by
  simp only [addStats, incr32, dnsStats.mk.injEq, and_true, true_and]
  omega

theorem drainSim_process {base : dnsKey → dnsStats} {w s : dnsStatKeeper}
    (h : DrainSim base w s) (info : dnsPacketInfo) (ts : Time) :
    DrainSim base (ProcessPacketInfo w info ts) (ProcessPacketInfo s info ts) := by
  obtain ⟨hst, hdc, hexp, hmax, hth, hstats⟩ := h
  by_cases hq : info.pktType = Query
  · by_cases hfull : len w.state = w.maxSize
    · rw [process_query_full w info ts hq hfull,
        process_query_full s info ts hq (by rw [← hst, ← hmax]; exact hfull)]
      exact ⟨hst, hdc, hexp, hmax, hth, hstats⟩
    · cases hp : w.state.lookup ⟨info.key, info.transactionID⟩ with
      | none =>
        rw [process_query_accept w info ts hq hfull hp,
          process_query_accept s info ts hq (by rw [← hst, ← hmax]; exact hfull)
            (by rw [← hst]; exact hp)]
        exact ⟨by simp [hst], hdc, hexp, hmax, hth, hstats⟩
      | some t0 =>
        rw [process_query_pending w info ts t0 hq hp,
          process_query_pending s info ts t0 hq (by rw [← hst]; exact hp)]
        exact ⟨hst, hdc, hexp, hmax, hth, hstats⟩
  · cases hp : w.state.lookup ⟨info.key, info.transactionID⟩ with
    | none =>
      rw [process_response_unmatched w info ts hq hp,
        process_response_unmatched s info ts hq (by rw [← hst]; exact hp)]
      exact ⟨hst, hdc, hexp, hmax, hth, hstats⟩
    | some t0 =>
      rw [process_response_matched w info ts t0 hq hp,
        process_response_matched s info ts t0 hq (by rw [← hst]; exact hp)]
      refine ⟨by simp [hst], by simp [hdc], hexp, hmax, hth, fun F => ?_⟩
      simp only [statsAt_insert]
      by_cases hF : F = info.key
      · subst hF
        simp only [if_true]
        rw [hstats, hexp, recordResponse_addStats]
      · simp only [hF, if_false]
        exact hstats F

theorem drainSim_expireEntry {base : dnsKey → dnsStats} {w s : dnsStatKeeper}
    (h : DrainSim base w s) (earliestTs : Time) (e : Sigma (fun _ : stateKey => Time)) :
    DrainSim base (expireEntry earliestTs w e) (expireEntry earliestTs s e) := by
  obtain ⟨hst, hdc, hexp, hmax, hth, hstats⟩ := h
  by_cases hexpired : e.2 < earliestTs
  · simp only [expireEntry, hexpired, if_true]
    refine ⟨by simp [hst], by simp [hdc], hexp, hmax, hth, fun F => ?_⟩
    simp only [statsAt_insert]
    by_cases hF : F = e.1.key
    · subst hF
      simp only [if_true]
      rw [hstats, bumpTimeouts_addStats]
    · simp only [hF, if_false]
      exact hstats F
  · simp only [expireEntry, hexpired, if_false]
    exact ⟨hst, hdc, hexp, hmax, hth, hstats⟩

theorem drainSim_foldl {base : dnsKey → dnsStats} (earliestTs : Time) :
    ∀ (l : List (Sigma (fun _ : stateKey => Time))) (w s : dnsStatKeeper),
      DrainSim base w s →
      DrainSim base (l.foldl (expireEntry earliestTs) w)
        (l.foldl (expireEntry earliestTs) s)
  | [], _, _, h => h
  | e :: l, _, _, h => drainSim_foldl earliestTs l _ _ (drainSim_expireEntry h earliestTs e)

theorem drainSim_sweep {base : dnsKey → dnsStats} {w s : dnsStatKeeper}
    (h : DrainSim base w s) (earliestTs : Time) :
    DrainSim base (removeExpiredStates w earliestTs) (removeExpiredStates s earliestTs) := by
  have hl : DrainSim base (expireLoop earliestTs w) (expireLoop earliestTs s) := by
    unfold expireLoop
    rw [h.1]
    exact drainSim_foldl earliestTs _ w s h
  obtain ⟨hst, hdc, hexp, hmax, hth, hstats⟩ := hl
  by_cases hc : (expireLoop earliestTs w).deleteCount < (expireLoop earliestTs w).deleteThreshold
  · have hc1 : (expireLoop earliestTs s).deleteCount <
        (expireLoop earliestTs s).deleteThreshold := by
      rw [← hdc, ← hth]; exact hc
    simp only [removeExpiredStates, hc, hc1, if_true]
    exact ⟨hst, hdc, hexp, hmax, hth, hstats⟩
  · have hc1 : ¬ (expireLoop earliestTs s).deleteCount <
        (expireLoop earliestTs s).deleteThreshold := by
      rw [← hdc, ← hth]; exact hc
    simp only [removeExpiredStates, hc, hc1, if_false]
    exact ⟨by simp [hst], rfl, hexp, hmax, hth, hstats⟩

theorem drainSim_runCalls {base : dnsKey → dnsStats} :
    ∀ (calls : List Call) (w s : dnsStatKeeper), DrainSim base w s →
      DrainSim base (runCalls w calls) (runCalls s calls)
  | [], _, _, h => h
  | c :: calls, w, s, h => by
    have h1 : DrainSim base (c.apply w) (c.apply s) := by
      cases c with
      | process info ts => exact drainSim_process h info ts
      | sweep earliestTs => exact drainSim_sweep h earliestTs
    exact drainSim_runCalls calls _ _ h1

theorem statsAt_inRange {m : StatsMap} (h : StatsInRange m) (F : dnsKey) :
    (statsAt m F).inRange := by
  unfold statsAt
  cases hl : m.lookup F with
  | none => simp [dnsStats.inRange]
  | some v => exact h ⟨F, v⟩ (AList.mem_lookup_iff.1 hl)

theorem statsInRange_insert {m : StatsMap} (h : StatsInRange m) (K : dnsKey) {v : dnsStats}
    (hv : v.inRange) : StatsInRange (m.insert K v) := by
  intro e he
  rw [AList.insert_entries, List.mem_cons] at he
  rcases he with he | he
  · rw [he]; exact hv
  · exact h e ((List.kerase_sublist K m.entries).subset he)

theorem recordResponse_inRange (expirationPeriod : Int) (pktType : DNSPacketType)
    (ts start : Int) {x : dnsStats} (h : x.inRange) :
    (recordResponse expirationPeriod pktType ts start x).inRange := by
  obtain ⟨h1, h2, h3, h4, h5⟩ := h
  unfold recordResponse
  simp only []
  split_ifs
  · exact ⟨h1, h2, h3, h4, Nat.mod_lt _ (by decide)⟩
  · exact ⟨Nat.mod_lt _ (by decide), h2, Nat.mod_lt _ (by decide), h4, h5⟩
  · exact ⟨h1, Nat.mod_lt _ (by decide), h3, Nat.mod_lt _ (by decide), h5⟩
  · exact ⟨h1, h2, h3, h4, h5⟩

theorem statsInRange_process {d : dnsStatKeeper} (h : StatsInRange d.stats)
    (info : dnsPacketInfo) (ts : Time) : StatsInRange (ProcessPacketInfo d info ts).stats := by
  by_cases hq : info.pktType = Query
  · by_cases hfull : len d.state = d.maxSize
    · rw [process_query_full d info ts hq hfull]; exact h
    · cases hp : d.state.lookup ⟨info.key, info.transactionID⟩ with
      | none => rw [process_query_accept d info ts hq hfull hp]; exact h
      | some t0 => rw [process_query_pending d info ts t0 hq hp]; exact h
  · cases hp : d.state.lookup ⟨info.key, info.transactionID⟩ with
    | none => rw [process_response_unmatched d info ts hq hp]; exact h
    | some t0 =>
      rw [process_response_matched d info ts t0 hq hp]
      exact statsInRange_insert h _ (recordResponse_inRange _ _ _ _ (statsAt_inRange h _))

theorem statsInRange_foldl (earliestTs : Time) :
    ∀ (l : List (Sigma (fun _ : stateKey => Time))) (d : dnsStatKeeper),
      StatsInRange d.stats → StatsInRange (l.foldl (expireEntry earliestTs) d).stats
  | [], _, h => h
  | e :: l, d, h => by
    apply statsInRange_foldl earliestTs l
    by_cases hexpired : e.2 < earliestTs
    · simp only [expireEntry, hexpired, if_true]
      obtain ⟨h1, h2, h3, h4, _⟩ := statsAt_inRange h e.1.key
      exact statsInRange_insert h _ ⟨h1, h2, h3, h4, Nat.mod_lt _ (by decide)⟩
    · simp only [expireEntry, hexpired, if_false]
      exact h

theorem statsInRange_runCalls :
    ∀ (calls : List Call) (d : dnsStatKeeper), StatsInRange d.stats →
      StatsInRange (runCalls d calls).stats
  | [], _, h => h
  | c :: calls, d, h => by
    apply statsInRange_runCalls calls
    cases c with
    | process info ts => exact statsInRange_process h info ts
    | sweep earliestTs =>
      show StatsInRange (removeExpiredStates d earliestTs).stats
      rw [removeExpiredStates_stats]
      exact statsInRange_foldl earliestTs _ d h

/-! ## The deletion count -/

theorem cutoff_iff (now expirationPeriod t : Int) :
    t < now + -expirationPeriod ↔ now - t > expirationPeriod := by
  constructor <;> intro h <;> omega

theorem expireLoop_deleteCount (d : dnsStatKeeper) (earliestTs : Time) :
    (expireLoop earliestTs d).deleteCount =
      d.deleteCount + (expiredCount earliestTs d.state.entries : Int) ∧
    (expireLoop earliestTs d).deleteThreshold = d.deleteThreshold := by
  obtain ⟨_, _, h3, h4⟩ := foldl_expireEntry_config earliestTs d.state.entries d
  exact ⟨h4, h3⟩

theorem removeExpiredStates_deleteCount (d : dnsStatKeeper) (earliestTs : Time) :
    (removeExpiredStates d earliestTs).deleteCount =
      if d.deleteCount + (expiredCount earliestTs d.state.entries : Int) < d.deleteThreshold
      then d.deleteCount + (expiredCount earliestTs d.state.entries : Int) else 0 := by
  obtain ⟨h1, h2⟩ := expireLoop_deleteCount d earliestTs
  unfold removeExpiredStates
  simp only []
  rw [h1, h2]
  split
  · exact h1
  · rfl

theorem length_removeExpiredStates (d : dnsStatKeeper) (earliestTs : Time) :
    (removeExpiredStates d earliestTs).state.entries.length +
      expiredCount earliestTs d.state.entries = d.state.entries.length := by
  rw [(removeExpiredStates_perm d earliestTs).length_eq, expiredCount,
    ← List.countP_eq_length_filter,
    List.length_eq_countP_add_countP (fun e => decide (e.2 < earliestTs)) d.state.entries,
    Nat.add_comm]
  congr 1
  apply List.countP_congr
  intro e _
  simp

theorem process_deleteCount (d : dnsStatKeeper) (info : dnsPacketInfo) (ts : Time) :
    (ProcessPacketInfo d info ts).deleteCount =
      if info.pktType ≠ Query ∧
          (d.state.lookup ⟨info.key, info.transactionID⟩).isSome = true
      then d.deleteCount + 1 else d.deleteCount := by
  by_cases hq : info.pktType = Query
  · have hd : (ProcessPacketInfo d info ts).deleteCount = d.deleteCount := by
      by_cases hfull : len d.state = d.maxSize
      · rw [process_query_full d info ts hq hfull]
      · cases hp : d.state.lookup ⟨info.key, info.transactionID⟩ with
        | none => rw [process_query_accept d info ts hq hfull hp]
        | some t0 => rw [process_query_pending d info ts t0 hq hp]
    simp [hd, hq]
  · cases hp : d.state.lookup ⟨info.key, info.transactionID⟩ with
    | none => rw [process_response_unmatched d info ts hq hp]; simp
    | some t0 => rw [process_response_matched d info ts t0 hq hp]; simp [hq]

/-! ## Counters that do not wrap -/

theorem dnsStats_le_refl (a : dnsStats) : dnsStats.le a a :=
  ⟨Nat.le_refl _, Nat.le_refl _, Nat.le_refl _, Nat.le_refl _, Nat.le_refl _⟩

theorem recordFits_le (expirationPeriod : Int) (pktType : DNSPacketType) (ts start : Int)
    (s : dnsStats) (h : recordFits expirationPeriod pktType ts start s) :
    dnsStats.le s (recordResponse expirationPeriod pktType ts start s) := by
  unfold recordFits at h
  unfold recordResponse
  simp only []
  split_ifs at h ⊢
  · refine ⟨Nat.le_refl _, Nat.le_refl _, Nat.le_refl _, Nat.le_refl _, ?_⟩
    show s.timeouts ≤ (s.timeouts + 1) % 2 ^ 32
    omega
  · obtain ⟨h1, h2⟩ := h
    refine ⟨?_, Nat.le_refl _, ?_, Nat.le_refl _, Nat.le_refl _⟩
    · show s.successfulResponses ≤ (s.successfulResponses + 1) % 2 ^ 32
      omega
    · show s.successLatency ≤ (s.successLatency + _) % 2 ^ 64
      rw [Nat.mod_eq_of_lt h2]
      exact Nat.le_add_right _ _
  · obtain ⟨h1, h2⟩ := h
    refine ⟨Nat.le_refl _, ?_, Nat.le_refl _, ?_, Nat.le_refl _⟩
    · show s.failedResponses ≤ (s.failedResponses + 1) % 2 ^ 32
      omega
    · show s.failureLatency ≤ (s.failureLatency + _) % 2 ^ 64
      rw [Nat.mod_eq_of_lt h2]
      exact Nat.le_add_right _ _
  · exact dnsStats_le_refl s

theorem process_le (d : dnsStatKeeper) (info : dnsPacketInfo) (ts : Time)
    (hfit : info.pktType ≠ Query → ∀ start : Time,
      d.state.lookup ⟨info.key, info.transactionID⟩ = some start →
      recordFits d.expirationPeriod info.pktType ts start (statsAt d.stats info.key))
    (F : dnsKey) :
    dnsStats.le (statsAt d.stats F) (statsAt (ProcessPacketInfo d info ts).stats F) := by
  by_cases hq : info.pktType = Query
  · have hd : (ProcessPacketInfo d info ts).stats = d.stats := by
      by_cases hfull : len d.state = d.maxSize
      · rw [process_query_full d info ts hq hfull]
      · cases hp : d.state.lookup ⟨info.key, info.transactionID⟩ with
        | none => rw [process_query_accept d info ts hq hfull hp]
        | some t0 => rw [process_query_pending d info ts t0 hq hp]
    rw [hd]
    exact dnsStats_le_refl _
  · cases hp : d.state.lookup ⟨info.key, info.transactionID⟩ with
    | none =>
      rw [process_response_unmatched d info ts hq hp]
      exact dnsStats_le_refl _
    | some t0 =>
      rw [process_response_matched d info ts t0 hq hp]
      simp only [statsAt_insert]
      by_cases hF : F = info.key
      · subst hF
        simp only [if_true]
        exact recordFits_le _ _ _ _ _ (hfit hq t0 hp)
      · simp only [hF, if_false]
        exact dnsStats_le_refl _

theorem sweep_le (d : dnsStatKeeper) (earliestTs : Time) (F : dnsKey)
    (hfit : 0 < expiredOf earliestTs F d.state.entries →
      (statsAt d.stats F).timeouts + expiredOf earliestTs F d.state.entries < 2 ^ 32) :
    dnsStats.le (statsAt d.stats F) (statsAt (removeExpiredStates d earliestTs).stats F) := by
  have hl := foldl_expireEntry_stats earliestTs F d.state.entries d
  rw [← expireLoop, ← removeExpiredStates_stats] at hl
  by_cases h0 : expiredOf earliestTs F d.state.entries = 0
  · rw [if_pos h0] at hl
    have : statsAt (removeExpiredStates d earliestTs).stats F = statsAt d.stats F := by
      rw [statsAt, hl]; rfl
    rw [this]
    exact dnsStats_le_refl _
  · rw [if_neg h0] at hl
    have hlt := hfit (Nat.pos_of_ne_zero h0)
    have : statsAt (removeExpiredStates d earliestTs).stats F =
        { statsAt d.stats F with
          timeouts := ((statsAt d.stats F).timeouts +
            expiredOf earliestTs F d.state.entries) % 2 ^ 32 } := by
      rw [statsAt, hl]; rfl
    rw [this]
    refine ⟨Nat.le_refl _, Nat.le_refl _, Nat.le_refl _, Nat.le_refl _, ?_⟩
    show (statsAt d.stats F).timeouts ≤ _ % 2 ^ 32
    rw [Nat.mod_eq_of_lt hlt]
    exact Nat.le_add_right _ _

/-! ## Accounting for every query -/

theorem sum_outcomes_kerase (K : dnsKey) :
    ∀ l : List (Sigma (fun _ : dnsKey => dnsStats)),
      (l.map (fun e => e.2.outcomes)).sum =
        ((List.dlookup K l).getD {}).outcomes +
          ((List.kerase K l).map (fun e => e.2.outcomes)).sum
  | [] => by simp [dnsStats.outcomes]
  | s :: l => by
    by_cases h : K = s.1
    · obtain ⟨k, v⟩ := s
      have hk : K = k := h
      subst hk
      have hk2 : List.kerase K ((⟨K, v⟩ : Sigma (fun _ : dnsKey => dnsStats)) :: l) = l :=
        List.kerase_cons_eq rfl
      rw [List.dlookup_cons_eq, hk2]
      simp
    · rw [List.dlookup_cons_ne _ _ h, List.kerase_cons_ne h, List.map_cons, List.sum_cons,
        List.map_cons, List.sum_cons, sum_outcomes_kerase K l]
      omega

theorem totalOutcomes_insert (m : StatsMap) (K : dnsKey) (v : dnsStats) :
    totalOutcomes (m.insert K v) + (statsAt m K).outcomes = totalOutcomes m + v.outcomes := by
  have h := sum_outcomes_kerase K m.entries
  unfold totalOutcomes statsAt AList.lookup
  rw [AList.insert_entries, List.map_cons, List.sum_cons, h]
  dsimp only
  omega

theorem outcomes_le_totalOutcomes (m : StatsMap) (F : dnsKey) :
    (statsAt m F).outcomes ≤ totalOutcomes m := by
  have h := sum_outcomes_kerase F m.entries
  unfold totalOutcomes statsAt AList.lookup
  omega

theorem length_erase_of_lookup (m : StateMap) (k : stateKey) (t : Time)
    (h : m.lookup k = some t) : (m.erase k).entries.length + 1 = m.entries.length := by
  have hk : k ∈ m.entries.keys := by
    have : (m.lookup k).isSome = true := by rw [h]; rfl
    exact AList.mem_keys.1 (AList.lookup_isSome.1 this)
  obtain ⟨b, l1, l2, _, h2, h3⟩ := List.exists_of_kerase hk
  have e1 : (m.erase k).entries = List.kerase k m.entries := rfl
  rw [e1, h3, h2]
  simp
  omega

theorem recordResponse_outcomes (expirationPeriod : Int) (pktType : DNSPacketType)
    (ts start : Int) (s : dnsStats)
    (hresp : pktType = SuccessfulResponse ∨ pktType = FailedResponse) (hfit : countsFit s) :
    (recordResponse expirationPeriod pktType ts start s).outcomes = s.outcomes + 1 := by
  obtain ⟨h1, h2, h3⟩ := hfit
  have h4 : FailedResponse ≠ SuccessfulResponse := by decide
  by_cases hl : (Time.Sub ts start).val > expirationPeriod <;> rcases hresp with h | h <;>
    simp only [recordResponse, hl, h, h4, if_true, if_false, dnsStats.outcomes, incr32] <;>
    omega

theorem accounted_query_accept (d : dnsStatKeeper) (info : dnsPacketInfo) (ts : Time)
    (hq : info.pktType = Query) (hroom : len d.state ≠ d.maxSize)
    (hp : d.state.lookup ⟨info.key, info.transactionID⟩ = none) :
    accounted (ProcessPacketInfo d info ts) = accounted d + 1 := by
  rw [process_query_accept d info ts hq hroom hp]
  have hk : (⟨info.key, info.transactionID⟩ : stateKey) ∉ d.state := AList.lookup_eq_none.1 hp
  simp only [accounted, AList.insert_entries_of_neg hk, List.length_cons]
  omega

theorem accounted_query_reject (d : dnsStatKeeper) (info : dnsPacketInfo) (ts : Time)
    (hq : info.pktType = Query)
    (hrej : len d.state = d.maxSize ∨
      (d.state.lookup ⟨info.key, info.transactionID⟩).isSome = true) :
    accounted (ProcessPacketInfo d info ts) = accounted d := by
  rcases hrej with h | h
  · rw [process_query_full d info ts hq h]
  · obtain ⟨t0, ht0⟩ := Option.isSome_iff_exists.1 h
    by_cases hfull : len d.state = d.maxSize
    · rw [process_query_full d info ts hq hfull]
    · rw [process_query_pending d info ts t0 hq ht0]

theorem accounted_response (d : dnsStatKeeper) (info : dnsPacketInfo) (ts : Time)
    (hresp : info.pktType = SuccessfulResponse ∨ info.pktType = FailedResponse)
    (hfit : (d.state.lookup ⟨info.key, info.transactionID⟩).isSome = true →
      countsFit (statsAt d.stats info.key)) :
    accounted (ProcessPacketInfo d info ts) = accounted d := by
  have hne : info.pktType ≠ Query := by
    rcases hresp with h | h <;> rw [h] <;> decide
  cases hp : d.state.lookup ⟨info.key, info.transactionID⟩ with
  | none => rw [process_response_unmatched d info ts hne hp]
  | some t0 =>
    rw [process_response_matched d info ts t0 hne hp]
    have h1 := totalOutcomes_insert d.stats info.key
      (recordResponse d.expirationPeriod info.pktType ts t0 (statsAt d.stats info.key))
    rw [recordResponse_outcomes _ _ _ _ _ hresp (hfit (by rw [hp]; rfl))] at h1
    have h2 := length_erase_of_lookup d.state _ t0 hp
    simp only [accounted]
    omega

theorem foldl_expireEntry_total (earliestTs : Time) :
    ∀ (l : List (Sigma (fun _ : stateKey => Time))) (d : dnsStatKeeper),
      (∀ F : dnsKey, 0 < expiredOf earliestTs F l →
        (statsAt d.stats F).timeouts + expiredOf earliestTs F l < 2 ^ 32) →
      totalOutcomes (l.foldl (expireEntry earliestTs) d).stats =
        totalOutcomes d.stats + expiredCount earliestTs l
  | [], d, _ => by simp [expiredCount]
  | e :: l, d, hfit => by
    rw [List.foldl_cons]
    by_cases hexp : e.2 < earliestTs
    · have hcount : expiredCount earliestTs (e :: l) = expiredCount earliestTs l + 1 := by
        simp [expiredCount, List.countP_cons, hexp]
      have hofK : expiredOf earliestTs e.1.key (e :: l) =
          expiredOf earliestTs e.1.key l + 1 := by
        simp [expiredOf, List.countP_cons, hexp]
      have hK := hfit e.1.key (by omega)
      have hstats : (expireEntry earliestTs d e).stats = d.stats.insert e.1.key
          { statsAt d.stats e.1.key with
            timeouts := (statsAt d.stats e.1.key).timeouts + 1 } := by
        have : ((statsAt d.stats e.1.key).timeouts + 1) % 2 ^ 32 =
            (statsAt d.stats e.1.key).timeouts + 1 := Nat.mod_eq_of_lt (by omega)
        simp only [expireEntry, hexp, if_true, incr32, this]
      have htot := totalOutcomes_insert d.stats e.1.key
        { statsAt d.stats e.1.key with timeouts := (statsAt d.stats e.1.key).timeouts + 1 }
      rw [← hstats] at htot
      simp only [dnsStats.outcomes] at htot
      rw [foldl_expireEntry_total earliestTs l, hcount]
      · omega
      · intro F hpos
        rw [hstats, statsAt_insert]
        by_cases hF : F = e.1.key
        · subst hF
          simp only [if_true]
          omega
        · have hof : expiredOf earliestTs F (e :: l) = expiredOf earliestTs F l := by
            simp [expiredOf, List.countP_cons, Ne.symm hF]
          have := hfit F (by omega)
          simp only [hF, if_false]
          omega
    · have hcount : expiredCount earliestTs (e :: l) = expiredCount earliestTs l := by
        simp [expiredCount, List.countP_cons, hexp]
      have h1 : expireEntry earliestTs d e = d := by simp [expireEntry, hexp]
      rw [h1, foldl_expireEntry_total earliestTs l, hcount]
      intro F hpos
      have hof : expiredOf earliestTs F (e :: l) = expiredOf earliestTs F l := by
        simp [expiredOf, List.countP_cons, hexp]
      have := hfit F (by omega)
      omega

theorem accounted_sweep (d : dnsStatKeeper) (earliestTs : Time)
    (hfit : ∀ F : dnsKey, 0 < expiredOf earliestTs F d.state.entries →
      (statsAt d.stats F).timeouts + expiredOf earliestTs F d.state.entries < 2 ^ 32) :
    accounted (removeExpiredStates d earliestTs) = accounted d := by
  have h1 := foldl_expireEntry_total earliestTs d.state.entries d hfit
  rw [← expireLoop, ← removeExpiredStates_stats] at h1
  have h2 := length_removeExpiredStates d earliestTs
  simp only [accounted]
  omega

theorem accounted_apply (d : dnsStatKeeper) (c : Call) (hk : c.known)
    (hbound : accounted d < 2 ^ 32) :
    accounted (c.apply d) = accounted d + accepted d c := by
  cases c with
  | process info ts =>
    show accounted (ProcessPacketInfo d info ts) = _
    rcases hk with hq | hresp
    · by_cases hacc : len d.state ≠ d.maxSize ∧
          d.state.lookup ⟨info.key, info.transactionID⟩ = none
      · have : accepted d (Call.process info ts) = 1 := by simp [accepted, hq, hacc]
        rw [this]
        exact accounted_query_accept d info ts hq hacc.1 hacc.2
      · have : accepted d (Call.process info ts) = 0 := by simp [accepted, hq, hacc]
        rw [this]
        apply accounted_query_reject d info ts hq
        by_cases hfull : len d.state = d.maxSize
        · exact Or.inl hfull
        · right
          cases hp : d.state.lookup ⟨info.key, info.transactionID⟩ with
          | none => exact absurd ⟨hfull, hp⟩ hacc
          | some t0 => rfl
    · have hne : info.pktType ≠ Query := by
        rcases hresp with h | h <;> rw [h] <;> decide
      have : accepted d (Call.process info ts) = 0 := by simp [accepted, hne]
      rw [this]
      apply accounted_response d info ts hresp
      intro hsome
      obtain ⟨t0, ht0⟩ := Option.isSome_iff_exists.1 hsome
      have h1 := length_erase_of_lookup d.state _ t0 ht0
      have h2 := outcomes_le_totalOutcomes d.stats info.key
      simp only [accounted] at hbound
      simp only [dnsStats.outcomes] at h2
      refine ⟨?_, ?_, ?_⟩ <;> omega
  | sweep earliestTs =>
    show accounted (removeExpiredStates d earliestTs) = _
    have : accepted d (Call.sweep earliestTs) = 0 := rfl
    rw [this]
    apply accounted_sweep d earliestTs
    intro F _
    have h1 : expiredOf earliestTs F d.state.entries ≤
        expiredCount earliestTs d.state.entries := by
      unfold expiredOf expiredCount
      apply List.countP_mono_left
      intro x _ hx
      simp only [Bool.and_eq_true] at hx
      exact hx.1
    have h2 : expiredCount earliestTs d.state.entries ≤ d.state.entries.length :=
      List.countP_le_length _
    have h3 := outcomes_le_totalOutcomes d.stats F
    simp only [accounted] at hbound
    simp only [dnsStats.outcomes] at h3
    omega

theorem accounted_runCalls :
    ∀ (calls : List Call) (d : dnsStatKeeper), (∀ c ∈ calls, c.known) →
      accounted d + acceptedQueries d calls < 2 ^ 32 →
      accounted (runCalls d calls) = accounted d + acceptedQueries d calls
  | [], _, _, _ => rfl
  | c :: calls, d, hk, hbound => by
    have hstep := accounted_apply d c (hk c (List.mem_cons_self _ _)) (by
      simp only [acceptedQueries] at hbound
      omega)
    have ih := accounted_runCalls calls (c.apply d)
      (fun x hx => hk x (List.mem_cons_of_mem _ hx)) (by
        simp only [acceptedQueries] at hbound
        omega)
    show accounted (runCalls (c.apply d) calls) = _
    rw [ih, hstep]
    simp only [acceptedQueries]
    omega

/-! ## Ingestion: correlation, late responses, capacity, no-ops -/

/-- C1 (correlation correctness).  In a keeper whose store is below `maxSize` and has no
entry for `(F, id)`, a query for `(F, id)` at `t0` followed by a response at `t1` with
`t0 ≤ t1` and `t1 - t0 ≤ expirationPeriod` leaves no entry for `(F, id)`; the record of
`F` is the one before with, for a successful response, `successfulResponses` one higher
and `successLatency` higher by `(t1 - t0) / 1000`, and for a failed response
`failedResponses` one higher and `failureLatency` higher by `(t1 - t0) / 1000` (sums in
`uint32` resp. `uint64`); every other field, `timeouts` included, is as before. -/
theorem correlation_correctness (d : dnsStatKeeper) (F : dnsKey) (id : Nat) (t0 t1 : Time)
    (hroom : len d.state < d.maxSize)
    (hfresh : d.state.lookup ⟨F, id⟩ = none)
    (hle : t0 ≤ t1) (hwin : t1 - t0 ≤ d.expirationPeriod) :
    (ProcessPacketInfo d ⟨id, F, Query⟩ t0).state.lookup ⟨F, id⟩ = some t0 ∧
    (queryThenResponse d F id SuccessfulResponse t0 t1).state.lookup ⟨F, id⟩ = none ∧
    (queryThenResponse d F id SuccessfulResponse t0 t1).stats.lookup F = some
      { statsAt d.stats F with
        successfulResponses := ((statsAt d.stats F).successfulResponses + 1) % 2 ^ 32
        successLatency :=
          ((statsAt d.stats F).successLatency + ((t1 - t0) / 1000).toNat) % 2 ^ 64 } ∧
    (queryThenResponse d F id FailedResponse t0 t1).state.lookup ⟨F, id⟩ = none ∧
    (queryThenResponse d F id FailedResponse t0 t1).stats.lookup F = some
      { statsAt d.stats F with
        failedResponses := ((statsAt d.stats F).failedResponses + 1) % 2 ^ 32
        failureLatency :=
          ((statsAt d.stats F).failureLatency + ((t1 - t0) / 1000).toNat) % 2 ^ 64 } := by
  have hq := process_query_accept d ⟨id, F, Query⟩ t0 rfl (ne_of_lt hroom) hfresh
  have hpend : (ProcessPacketInfo d ⟨id, F, Query⟩ t0).state.lookup ⟨F, id⟩ = some t0 := by
    rw [hq]; exact AList.lookup_insert _
  have hs := process_response_matched (ProcessPacketInfo d ⟨id, F, Query⟩ t0)
    ⟨id, F, SuccessfulResponse⟩ t1 t0 (show SuccessfulResponse ≠ Query by decide) hpend
  have hf := process_response_matched (ProcessPacketInfo d ⟨id, F, Query⟩ t0)
    ⟨id, F, FailedResponse⟩ t1 t0 (show FailedResponse ≠ Query by decide) hpend
  have hcfg : (ProcessPacketInfo d ⟨id, F, Query⟩ t0).expirationPeriod = d.expirationPeriod := by
    rw [hq]
  have hst : (ProcessPacketInfo d ⟨id, F, Query⟩ t0).stats = d.stats := by rw [hq]
  refine ⟨hpend, ?_, ?_, ?_, ?_⟩
  · rw [queryThenResponse, hs]; exact AList.lookup_erase _ _
  · rw [queryThenResponse, hs]
    simp only [AList.lookup_insert, hcfg, hst]
    rw [recordResponse_success _ _ _ _ hle hwin d.expirationPeriod.property.2]
  · rw [queryThenResponse, hf]; exact AList.lookup_erase _ _
  · rw [queryThenResponse, hf]
    simp only [AList.lookup_insert, hcfg, hst]
    rw [recordResponse_failure _ _ _ _ hle hwin d.expirationPeriod.property.2]

/-- The scenario of the specification: with `expirationPeriod` one second, a query at
0 ms and a successful response at 100 ms give `successfulResponses = 1` and
`successLatency = 100000`. -/
theorem correlation_correctness_witness :
    len (newDNSStatkeeper oneSecond).state < (newDNSStatkeeper oneSecond).maxSize ∧
    (newDNSStatkeeper oneSecond).state.lookup ⟨flowF, 1⟩ = none ∧
    (queryThenResponse (newDNSStatkeeper oneSecond) flowF 1 SuccessfulResponse
        0 100000000).state.lookup ⟨flowF, 1⟩ = none ∧
    (queryThenResponse (newDNSStatkeeper oneSecond) flowF 1 SuccessfulResponse
        0 100000000).stats.lookup flowF =
      some { successfulResponses := 1, successLatency := 100000 } := by
  have h := correlation_correctness (newDNSStatkeeper oneSecond) flowF 1 0 100000000
    (by decide) (by decide) (by decide) (by decide)
  exact ⟨by decide, by decide, h.2.1, by rw [h.2.2.1]; decide⟩

/-- C2, as stated, fails.  In `farApart` the period is the largest duration and query 1
is pending since `-5 * 10^18` ns.  For a successful response at `5 * 10^18` ns the
difference `10^19` ns exceeds the period, but `Sub` saturates at the largest duration,
which is not above the period: the response is counted as a success with a latency of
`9223372036854775` µs and `timeouts` stays 0. -/
theorem late_response_reclassification_counterexample :
    farApart.state.lookup ⟨flowF, 1⟩ = some (-5000000000000000000) ∧
    (5000000000000000000 : Int) - (-5000000000000000000) > farApart.expirationPeriod ∧
    (ProcessPacketInfo farApart ⟨1, flowF, SuccessfulResponse⟩
        5000000000000000000).stats.lookup flowF =
      some { successfulResponses := 1, successLatency := 9223372036854775 } ∧
    (ProcessPacketInfo farApart ⟨1, flowF, SuccessfulResponse⟩
        5000000000000000000).stats.lookup flowF ≠
      some { statsAt farApart.stats flowF with
        timeouts := ((statsAt farApart.stats flowF).timeouts + 1) % 2 ^ 32 } := by
  decide

/-- C2, amended (late-response reclassification).  When `(F, id)` is pending since `t0`,
a successful or failed response for `(F, id)` at `t1` with `t1 - t0 > expirationPeriod`
removes the pending entry, and the record of `F` afterwards is the one before with
`timeouts` one higher (in `uint32`), `successfulResponses`, `failedResponses`,
`successLatency` and `failureLatency` being as before, provided `expirationPeriod` is
below the largest duration or `t1 - t0` is at most the largest duration. -/
theorem late_response_reclassification (d : dnsStatKeeper) (F : dnsKey) (id : Nat)
    (pktType : DNSPacketType) (t0 t1 : Time)
    (hresp : pktType = SuccessfulResponse ∨ pktType = FailedResponse)
    (hpend : d.state.lookup ⟨F, id⟩ = some t0)
    (hlate : t1 - t0 > d.expirationPeriod)
    (hsat : d.expirationPeriod < maxDuration ∨ t1 - t0 ≤ maxDuration) :
    (ProcessPacketInfo d ⟨id, F, pktType⟩ t1).state.lookup ⟨F, id⟩ = none ∧
    (ProcessPacketInfo d ⟨id, F, pktType⟩ t1).stats.lookup F = some
      { statsAt d.stats F with timeouts := ((statsAt d.stats F).timeouts + 1) % 2 ^ 32 } := by
  have hne : pktType ≠ Query := by
    rcases hresp with h | h <;> rw [h] <;> decide
  have h := process_response_matched d ⟨id, F, pktType⟩ t1 t0 hne hpend
  constructor
  · rw [h]; exact AList.lookup_erase _ _
  · rw [h]
    simp only [AList.lookup_insert]
    rw [recordResponse_late _ _ _ _ _ (Sub_val_gt t1 t0 _ hlate hsat)]

/-- A query at 0 answered after two seconds, with `expirationPeriod` one second. -/
theorem late_response_reclassification_witness :
    (ProcessPacketInfo (newDNSStatkeeper oneSecond) ⟨1, flowF, Query⟩ 0).state.lookup
        ⟨flowF, 1⟩ = some 0 ∧
    (2000000000 : Int) - 0 >
      (ProcessPacketInfo (newDNSStatkeeper oneSecond) ⟨1, flowF, Query⟩ 0).expirationPeriod ∧
    (2000000000 : Int) - 0 ≤ maxDuration ∧
    (ProcessPacketInfo (ProcessPacketInfo (newDNSStatkeeper oneSecond) ⟨1, flowF, Query⟩ 0)
        ⟨1, flowF, SuccessfulResponse⟩ 2000000000).stats.lookup flowF =
      some { timeouts := 1 } := by
  have h := late_response_reclassification
    (ProcessPacketInfo (newDNSStatkeeper oneSecond) ⟨1, flowF, Query⟩ 0) flowF 1
    SuccessfulResponse 0 2000000000 (Or.inl rfl) (by decide) (by decide)
    (Or.inr (by decide))
  exact ⟨by decide, by decide, by decide, by rw [h.2]; decide⟩

/-- C5 (capacity enforcement).  When the store holds exactly `maxSize` entries and
`(F, id)` is not pending, a query for `(F, id)` leaves the keeper (store, statistics,
deletion count) as it is, and so does a successful or failed response for `(F, id)`
processed right after it. -/
theorem capacity_enforcement (d : dnsStatKeeper) (F : dnsKey) (id : Nat)
    (pktType : DNSPacketType) (t t1 : Time)
    (hfull : len d.state = d.maxSize)
    (hfresh : d.state.lookup ⟨F, id⟩ = none)
    (hresp : pktType = SuccessfulResponse ∨ pktType = FailedResponse) :
    ProcessPacketInfo d ⟨id, F, Query⟩ t = d ∧
    queryThenResponse d F id pktType t t1 = d := by
  have hq := process_query_full d ⟨id, F, Query⟩ t rfl hfull
  have hne : pktType ≠ Query := by
    rcases hresp with h | h <;> rw [h] <;> decide
  refine ⟨hq, ?_⟩
  rw [queryThenResponse, hq]
  exact process_response_unmatched d ⟨id, F, pktType⟩ t1 hne hfresh

/-- The scenario of the specification: with `maxSize = 2` and queries 1 and 2 accepted,
query 3 is dropped and the store still holds 2 entries. -/
theorem capacity_enforcement_witness :
    len twoPending.state = twoPending.maxSize ∧
    twoPending.state.lookup ⟨flowF, 3⟩ = none ∧
    twoPending.state.lookup ⟨flowF, 1⟩ = some 10 ∧
    twoPending.state.lookup ⟨flowF, 2⟩ = some 20 ∧
    ProcessPacketInfo twoPending ⟨3, flowF, Query⟩ 30 = twoPending ∧
    len (ProcessPacketInfo twoPending ⟨3, flowF, Query⟩ 30).state = 2 ∧
    queryThenResponse twoPending flowF 3 SuccessfulResponse 30 40 = twoPending := by
  have h := capacity_enforcement twoPending flowF 3 SuccessfulResponse 30 40
    (by decide) (by decide) (Or.inl rfl)
  exact ⟨by decide, by decide, by decide, by decide, h.1, by rw [h.1]; decide, h.2⟩

/-- C6 (unmatched response is a no-op).  A successful or failed response whose
`(key, transactionID)` has no pending entry leaves the whole keeper as it is: the
store, the statistics map with the flows that have an entry, and the deletion count. -/
theorem unmatched_response_noop (d : dnsStatKeeper) (info : dnsPacketInfo) (ts : Time)
    (hresp : info.pktType = SuccessfulResponse ∨ info.pktType = FailedResponse)
    (hnone : d.state.lookup ⟨info.key, info.transactionID⟩ = none) :
    ProcessPacketInfo d info ts = d := by
  have hne : info.pktType ≠ Query := by
    rcases hresp with h | h <;> rw [h] <;> decide
  exact process_response_unmatched d info ts hne hnone

/-- A failed response for transaction 7 while only 1 and 2 are pending. -/
theorem unmatched_response_noop_witness :
    twoPending.state.lookup ⟨flowF, 7⟩ = none ∧
    ProcessPacketInfo twoPending ⟨7, flowF, FailedResponse⟩ 50 = twoPending :=
  ⟨by decide,
    unmatched_response_noop twoPending ⟨7, flowF, FailedResponse⟩ 50 (Or.inr rfl) (by decide)⟩

/-- C7 (duplicate query is a no-op, first write wins).  When `(F, id)` is pending since
`t0`, a query for `(F, id)` at any `t` leaves the whole keeper as it is, whatever the
size of the store; the stored arrival time stays `t0`, and a response that follows is
recorded with the latency counted from `t0`. -/
theorem duplicate_query_noop (d : dnsStatKeeper) (F : dnsKey) (id : Nat) (t0 t : Time)
    (hpend : d.state.lookup ⟨F, id⟩ = some t0) :
    ProcessPacketInfo d ⟨id, F, Query⟩ t = d ∧
    (ProcessPacketInfo d ⟨id, F, Query⟩ t).state.lookup ⟨F, id⟩ = some t0 ∧
    ∀ (pktType : DNSPacketType) (t1 : Time), pktType ≠ Query →
      (queryThenResponse d F id pktType t t1).stats.lookup F =
        some (recordResponse d.expirationPeriod pktType t1 t0 (statsAt d.stats F)) := by
  have hq : ProcessPacketInfo d ⟨id, F, Query⟩ t = d := by
    by_cases hfull : len d.state = d.maxSize
    · exact process_query_full d ⟨id, F, Query⟩ t rfl hfull
    · exact process_query_pending d ⟨id, F, Query⟩ t t0 rfl hpend
  refine ⟨hq, by rw [hq]; exact hpend, ?_⟩
  intro pktType t1 hne
  rw [queryThenResponse, hq, process_response_matched d ⟨id, F, pktType⟩ t1 t0 hne hpend]
  simp only [AList.lookup_insert]

/-- A second query for transaction 1 at time 99, with the store at `maxSize`. -/
theorem duplicate_query_noop_witness :
    twoPending.state.lookup ⟨flowF, 1⟩ = some 10 ∧
    len twoPending.state = twoPending.maxSize ∧
    ProcessPacketInfo twoPending ⟨1, flowF, Query⟩ 99 = twoPending ∧
    (queryThenResponse twoPending flowF 1 SuccessfulResponse 99 5010).stats.lookup flowF =
      some { successfulResponses := 1, successLatency := 5 } := by
  have h := duplicate_query_noop twoPending flowF 1 10 99 (by decide)
  exact ⟨by decide, by decide, h.1,
    by rw [h.2.2 SuccessfulResponse 5010 (by decide)]; decide⟩

/-! ## Drain -/

/-- C8 (drain returns and clears).  `GetAndResetAllStats` returns exactly the statistics
map held before the call and leaves the keeper with an empty statistics map and with
the pending store, the deletion count and the configuration as they were; a second
drain right after it returns the empty map, while the first one returned a non-empty
map whenever some flow had statistics. -/
theorem drain_returns_and_clears (d : dnsStatKeeper) :
    (GetAndResetAllStats d).1 = d.stats ∧
    (GetAndResetAllStats d).2.stats = ∅ ∧
    (GetAndResetAllStats d).2.state = d.state ∧
    (GetAndResetAllStats d).2.deleteCount = d.deleteCount ∧
    (GetAndResetAllStats d).2.expirationPeriod = d.expirationPeriod ∧
    (GetAndResetAllStats d).2.maxSize = d.maxSize ∧
    (GetAndResetAllStats d).2.deleteThreshold = d.deleteThreshold ∧
    (GetAndResetAllStats (GetAndResetAllStats d).2).1 = ∅ ∧
    (d.stats.entries ≠ [] → (GetAndResetAllStats d).1.entries ≠ []) :=
  ⟨rfl, rfl, rfl, rfl, rfl, rfl, rfl, rfl, fun h => h⟩

/-- Two drains after one answered query: the first returns the record of `flowF`, the
second returns nothing. -/
theorem drain_returns_and_clears_witness :
    (queryThenResponse (newDNSStatkeeper oneSecond) flowF 1 SuccessfulResponse
        0 100000000).stats.entries ≠ [] ∧
    (GetAndResetAllStats (queryThenResponse (newDNSStatkeeper oneSecond) flowF 1
        SuccessfulResponse 0 100000000)).1.entries ≠ [] ∧
    (GetAndResetAllStats (GetAndResetAllStats (queryThenResponse
        (newDNSStatkeeper oneSecond) flowF 1 SuccessfulResponse 0 100000000)).2).1 = ∅ :=
  ⟨by decide,
    (drain_returns_and_clears (queryThenResponse (newDNSStatkeeper oneSecond) flowF 1
      SuccessfulResponse 0 100000000)).2.2.2.2.2.2.2.2 (by decide),
    (drain_returns_and_clears (queryThenResponse (newDNSStatkeeper oneSecond) flowF 1
      SuccessfulResponse 0 100000000)).2.2.2.2.2.2.2.1⟩

/-! ## Sweep -/

/-- C3 (sweep timeout tally).  After `removeExpiredStates d earliestTs` the store holds
exactly the entries of `d` whose arrival time is not before `earliestTs`, each with its
arrival time.  The record of a flow `F` with no evicted entry is untouched (also its
absence); the record of a flow with `n > 0` evicted entries is the one before with
`timeouts` higher by `n` (in `uint32`) and every other field as before.  In particular,
on a tick at `now > t0 + expirationPeriod` an entry pending since `t0` is removed and is
one of the evicted entries counted into the `timeouts` of its flow. -/
theorem sweep_timeout_tally (d : dnsStatKeeper) (earliestTs : Time) :
    (∀ (k : stateKey) (t : Time),
      (removeExpiredStates d earliestTs).state.lookup k = some t ↔
        d.state.lookup k = some t ∧ ¬ t < earliestTs) ∧
    (∀ F : dnsKey,
      (removeExpiredStates d earliestTs).stats.lookup F =
        if expiredOf earliestTs F d.state.entries = 0 then d.stats.lookup F
        else some { statsAt d.stats F with
          timeouts := ((statsAt d.stats F).timeouts +
            expiredOf earliestTs F d.state.entries) % 2 ^ 32 }) ∧
    (∀ (now : Time) (k : stateKey) (t0 : Time),
      d.state.lookup k = some t0 → now > t0 + d.expirationPeriod →
        (tick d now).state.lookup k = none ∧
        1 ≤ expiredOf (now + -d.expirationPeriod) k.key d.state.entries ∧
        (tick d now).stats.lookup k.key = some { statsAt d.stats k.key with
          timeouts := ((statsAt d.stats k.key).timeouts +
            expiredOf (now + -d.expirationPeriod) k.key d.state.entries) % 2 ^ 32 }) := by
  have hstats : ∀ (ts : Time) (F : dnsKey),
      (removeExpiredStates d ts).stats.lookup F =
        if expiredOf ts F d.state.entries = 0 then d.stats.lookup F
        else some { statsAt d.stats F with
          timeouts := ((statsAt d.stats F).timeouts +
            expiredOf ts F d.state.entries) % 2 ^ 32 } := by
    intro ts F
    rw [removeExpiredStates_stats, expireLoop, foldl_expireEntry_stats]
  refine ⟨fun k t => removeExpiredStates_lookup d earliestTs k t, hstats earliestTs, ?_⟩
  intro now k t0 hpend hnow
  have hlt : t0 < now + -d.expirationPeriod := by
    simp only [Time, Duration] at *
    omega
  have hpos : 1 ≤ expiredOf (now + -d.expirationPeriod) k.key d.state.entries := by
    have hmem : (⟨k, t0⟩ : Sigma (fun _ : stateKey => Time)) ∈ d.state.entries :=
      AList.mem_lookup_iff.1 hpend
    exact List.countP_pos_iff.2 ⟨⟨k, t0⟩, hmem, by simp [hlt]⟩
  refine ⟨?_, hpos, ?_⟩
  · rw [tick, Option.eq_none_iff_forall_not_mem]
    intro t ht
    have h := (removeExpiredStates_lookup d _ k t).1 ht
    rw [hpend] at h
    have : t0 = t := Option.some.inj h.1
    exact h.2 (this ▸ hlt)
  · rw [tick, hstats, if_neg (by omega)]

/-- The scenario of the specification: with `expirationPeriod` one second, a query at
0 ms that gets no response is removed by the tick just after 1000 ms and the flow then
has `timeouts = 1`. -/
theorem sweep_timeout_tally_witness :
    (ProcessPacketInfo (newDNSStatkeeper oneSecond) ⟨2, flowF, Query⟩ 0).state.lookup
        ⟨flowF, 2⟩ = some 0 ∧
    (tick (ProcessPacketInfo (newDNSStatkeeper oneSecond) ⟨2, flowF, Query⟩ 0)
        1000000001).state.lookup ⟨flowF, 2⟩ = none ∧
    (tick (ProcessPacketInfo (newDNSStatkeeper oneSecond) ⟨2, flowF, Query⟩ 0)
        1000000001).stats.lookup flowF = some { timeouts := 1 } := by
  have h := (sweep_timeout_tally
    (ProcessPacketInfo (newDNSStatkeeper oneSecond) ⟨2, flowF, Query⟩ 0) 0).2.2
    1000000001 ⟨flowF, 2⟩ 0 (by decide) (by decide)
  exact ⟨by decide, h.1, by rw [h.2.2]; decide⟩

/-! ## Capacity -/

/-- C4 (capacity bound invariant).  If the store of `d` holds at most `maxSize` entries
then so does the store after any sequence of `ProcessPacketInfo`, `removeExpiredStates`
and `GetAndResetAllStats` calls (a single call included), `maxSize` itself being
unchanged; the freshly constructed keeper satisfies the bound, so every state reached
from the constructor holds at most `maxSize = 10000` entries. -/
theorem capacity_bound_invariant (d : dnsStatKeeper) (hcap : len d.state ≤ d.maxSize) :
    (∀ op : Op, len (op.apply d).state ≤ (op.apply d).maxSize ∧
      (op.apply d).maxSize = d.maxSize) ∧
    (∀ ops : List Op, len (runOps d ops).state ≤ (runOps d ops).maxSize ∧
      (runOps d ops).maxSize = d.maxSize) ∧
    (∀ (timeout : Duration) (ops : List Op),
      len (runOps (newDNSStatkeeper timeout) ops).state ≤
        (runOps (newDNSStatkeeper timeout) ops).maxSize ∧
      (runOps (newDNSStatkeeper timeout) ops).maxSize = 10000) := by
  refine ⟨fun op => ?_, fun ops => ?_, fun timeout ops => ?_⟩
  · obtain ⟨h1, h2⟩ := len_apply_le d op hcap
    exact ⟨h2 ▸ h1, h2⟩
  · obtain ⟨h1, h2⟩ := len_runOps_le ops d hcap
    exact ⟨h2 ▸ h1, h2⟩
  · have h0 : len (newDNSStatkeeper timeout).state ≤ (newDNSStatkeeper timeout).maxSize := by
      simp [newDNSStatkeeper, len]
    obtain ⟨h1, h2⟩ := len_runOps_le ops (newDNSStatkeeper timeout) h0
    exact ⟨h2 ▸ h1, h2⟩

/-- The keeper with `maxSize = 2` and two pending queries stays within its bound when a
third query, a sweep and a drain follow. -/
theorem capacity_bound_invariant_witness :
    len twoPending.state ≤ twoPending.maxSize ∧
    len (runOps twoPending
      [Op.call (Call.process ⟨3, flowF, Query⟩ 30), Op.call (Call.sweep 15), Op.drain,
        Op.call (Call.process ⟨4, flowF, Query⟩ 40)]).state ≤ 2 := by
  have h := ((capacity_bound_invariant twoPending (by decide)).2.1
    [Op.call (Call.process ⟨3, flowF, Query⟩ 30), Op.call (Call.sweep 15), Op.drain,
      Op.call (Call.process ⟨4, flowF, Query⟩ 40)])
  exact ⟨by decide, by rw [h.2] at h; exact h.1⟩

/-- C9 (drains neither lose nor double-count).  Take a keeper whose statistics are values
of their Go types and a sequence of `ProcessPacketInfo` and `removeExpiredStates` calls
split into `p` followed by `q`.  The map drained after `p` and the map drained after
`q` add up, for every flow and field by field (an absent flow counting as all zeros,
sums modulo `2^32` for the counts and `2^64` for the latency sums), to the map drained
after `p ++ q` run without the drain in between; and the pending store at the end is
the same in both runs. -/
theorem drains_neither_lose_nor_double_count (d : dnsStatKeeper)
    (hwf : StatsInRange d.stats) (p q : List Call) :
    (∀ F : dnsKey,
      addStats (statsAt (GetAndResetAllStats (runCalls d p)).1 F)
        (statsAt (GetAndResetAllStats
          (runCalls (GetAndResetAllStats (runCalls d p)).2 q)).1 F) =
        statsAt (GetAndResetAllStats (runCalls d (p ++ q))).1 F) ∧
    (runCalls (GetAndResetAllStats (runCalls d p)).2 q).state =
      (runCalls d (p ++ q)).state := by
  have hp : StatsInRange (runCalls d p).stats := statsInRange_runCalls p d hwf
  have h0 : DrainSim (fun F => statsAt (runCalls d p).stats F) (runCalls d p)
      (GetAndResetAllStats (runCalls d p)).2 := by
    refine ⟨rfl, rfl, rfl, rfl, rfl, fun F => ?_⟩
    show _ = addStats _ (statsAt ∅ F)
    rw [statsAt_empty, addStats_zero _ (statsAt_inRange hp F)]
  have h1 := drainSim_runCalls q _ _ h0
  have happ : runCalls d (p ++ q) = runCalls (runCalls d p) q := by
    simp [runCalls, List.foldl_append]
  rw [happ]
  exact ⟨fun F => (h1.2.2.2.2.2 F).symm, h1.1.symm⟩

/-- Starting from a keeper that already counts one success for `flowF`: a failed
response before the drain and a swept query after it.  The two drained records add up
to the record of the run without the drain in between. -/
theorem drains_neither_lose_nor_double_count_witness :
    StatsInRange answeredOnce.stats ∧
    statsAt (GetAndResetAllStats (runCalls answeredOnce
      [Call.process ⟨2, flowF, Query⟩ 200000000,
        Call.process ⟨2, flowF, FailedResponse⟩ 200500000])).1 flowF =
      { successfulResponses := 1, successLatency := 100000,
        failedResponses := 1, failureLatency := 500 } ∧
    statsAt (GetAndResetAllStats (runCalls (GetAndResetAllStats (runCalls answeredOnce
        [Call.process ⟨2, flowF, Query⟩ 200000000,
          Call.process ⟨2, flowF, FailedResponse⟩ 200500000])).2
      [Call.process ⟨3, flowF, Query⟩ 300000000, Call.sweep 400000000])).1 flowF =
      { timeouts := 1 } ∧
    statsAt (GetAndResetAllStats (runCalls answeredOnce
      ([Call.process ⟨2, flowF, Query⟩ 200000000,
          Call.process ⟨2, flowF, FailedResponse⟩ 200500000] ++
        [Call.process ⟨3, flowF, Query⟩ 300000000, Call.sweep 400000000]))).1 flowF =
      { successfulResponses := 1, successLatency := 100000,
        failedResponses := 1, failureLatency := 500, timeouts := 1 } := by
  have h := (drains_neither_lose_nor_double_count answeredOnce (by decide)
    [Call.process ⟨2, flowF, Query⟩ 200000000,
      Call.process ⟨2, flowF, FailedResponse⟩ 200500000]
    [Call.process ⟨3, flowF, Query⟩ 300000000, Call.sweep 400000000]).1 flowF
  refine ⟨by decide, by decide, by decide, ?_⟩
  rw [← h]
  decide

/-! ## Compaction -/

/-- C10 (compaction preserves live entries).  What `removeExpiredStates` leaves as
pending store (as a map from key to arrival time, and in size) and as statistics does
not depend on the deletion count or on `deleteThreshold`, hence not on whether the store
is rebuilt by copying: it is in every case what the eviction loop alone produces.  The
store afterwards holds the surviving entries of the store before, each once and with
its arrival time, and nothing else. -/
theorem compaction_preserves_live_entries (d : dnsStatKeeper) (earliestTs : Time)
    (count threshold : Int) :
    (∀ k : stateKey,
      (removeExpiredStates { d with deleteCount := count, deleteThreshold := threshold }
          earliestTs).state.lookup k = (removeExpiredStates d earliestTs).state.lookup k) ∧
    (removeExpiredStates { d with deleteCount := count, deleteThreshold := threshold }
        earliestTs).stats = (removeExpiredStates d earliestTs).stats ∧
    len (removeExpiredStates { d with deleteCount := count, deleteThreshold := threshold }
        earliestTs).state = len (removeExpiredStates d earliestTs).state ∧
    (∀ k : stateKey, (removeExpiredStates d earliestTs).state.lookup k =
      (expireLoop earliestTs d).state.lookup k) ∧
    (removeExpiredStates d earliestTs).stats = (expireLoop earliestTs d).stats ∧
    List.Perm (removeExpiredStates d earliestTs).state.entries
      (survivingEntries earliestTs d.state) ∧
    (∀ (k : stateKey) (t : Time), d.state.lookup k = some t → ¬ t < earliestTs →
      (removeExpiredStates d earliestTs).state.lookup k = some t) := by
  obtain ⟨h1, h2⟩ := expireLoop_congr earliestTs
    { d with deleteCount := count, deleteThreshold := threshold } d rfl rfl
  refine ⟨fun k => ?_, ?_, ?_, fun k => removeExpiredStates_lookup_eq d earliestTs k,
    removeExpiredStates_stats d earliestTs, removeExpiredStates_perm d earliestTs,
    fun k t hk ht => (removeExpiredStates_lookup d earliestTs k t).2 ⟨hk, ht⟩⟩
  · rw [removeExpiredStates_lookup_eq, removeExpiredStates_lookup_eq, h1]
  · rw [removeExpiredStates_stats, removeExpiredStates_stats, h2]
  · rw [len_removeExpiredStates, len_removeExpiredStates, h1]

/-- A sweep at cut-off 15 over the two pending queries of `twoPending`, with the
threshold reached (`deleteThreshold = 1`, the store is copied) and not reached: query 2
is still found with arrival time 20 in both, query 1 is gone in both. -/
theorem compaction_preserves_live_entries_witness :
    twoPending.state.lookup ⟨flowF, 2⟩ = some 20 ∧
    (removeExpiredStates { twoPending with deleteCount := 0, deleteThreshold := 1 }
        15).deleteCount = 0 ∧
    (removeExpiredStates twoPending 15).deleteCount = 1 ∧
    (removeExpiredStates { twoPending with deleteCount := 0, deleteThreshold := 1 }
        15).state.lookup ⟨flowF, 2⟩ = some 20 ∧
    (removeExpiredStates twoPending 15).state.lookup ⟨flowF, 2⟩ = some 20 := by
  have h := compaction_preserves_live_entries twoPending 15 0 1
  have h2 := h.2.2.2.2.2.2 ⟨flowF, 2⟩ 20 (by decide) (by decide)
  exact ⟨by decide, by decide, by decide, by rw [h.1]; exact h2, h2⟩

/-! ## Monotonic counters -/

/-- C11, as stated, fails.  In `threeMicros`, reached from the constructor,
`successLatency` of `flowF` is 3; a successful response for the pending query 2 stamped
3000 ns, before the query's 5000 ns, is in-window, its latency of -2 µs is converted by
`uint64` and the sum wraps to 1.  In `timeoutsAtMax` a sweep takes `timeouts` of `flowF`
from 4294967295 to 0. -/
theorem counters_monotonic_counterexample :
    (statsAt threeMicros.stats flowF).successLatency = 3 ∧
    (statsAt (ProcessPacketInfo threeMicros ⟨2, flowF, SuccessfulResponse⟩ 3000).stats
      flowF).successLatency = 1 ∧
    ¬ dnsStats.le (statsAt threeMicros.stats flowF)
      (statsAt (ProcessPacketInfo threeMicros ⟨2, flowF, SuccessfulResponse⟩ 3000).stats
        flowF) ∧
    (statsAt timeoutsAtMax.stats flowF).timeouts = 4294967295 ∧
    (statsAt (removeExpiredStates timeoutsAtMax 1).stats flowF).timeouts = 0 ∧
    ¬ dnsStats.le (statsAt timeoutsAtMax.stats flowF)
      (statsAt (removeExpiredStates timeoutsAtMax 1).stats flowF) := by
  decide

/-- C11, amended.  After `ProcessPacketInfo` or `removeExpiredStates` each of the five
fields of every flow is at least its value before the call (a flow without an entry
counting as all zeros), provided no addition made by the call overflows its field: for
a response that matches an entry arrived at `start`, `recordFits` (the count that is
incremented is below `2^32 - 1`, and the latency sum plus `uint64` of the latency in
microseconds is below `2^64`, the latency being `ts.Sub(start)`, saturated at the
bounds of `Duration`); for a sweep, `timeouts` of a flow plus the number of its evicted
entries is below `2^32`. -/
theorem counters_monotonic_without_wrap (d : dnsStatKeeper) :
    (∀ (info : dnsPacketInfo) (ts : Time),
      (info.pktType ≠ Query → ∀ start : Time,
        d.state.lookup ⟨info.key, info.transactionID⟩ = some start →
        recordFits d.expirationPeriod info.pktType ts start (statsAt d.stats info.key)) →
      ∀ F : dnsKey,
        dnsStats.le (statsAt d.stats F) (statsAt (ProcessPacketInfo d info ts).stats F)) ∧
    (∀ earliestTs : Time,
      (∀ F : dnsKey, 0 < expiredOf earliestTs F d.state.entries →
        (statsAt d.stats F).timeouts + expiredOf earliestTs F d.state.entries < 2 ^ 32) →
      ∀ F : dnsKey,
        dnsStats.le (statsAt d.stats F)
          (statsAt (removeExpiredStates d earliestTs).stats F)) :=
  ⟨fun info ts hfit F => process_le d info ts hfit F,
    fun earliestTs hfit F => sweep_le d earliestTs F (hfit F)⟩

/-- In `threeMicros` a successful response for query 2 stamped 9000 ns, after the
query, fits: `successLatency` goes from 3 to 7 and no field decreases. -/
theorem counters_monotonic_without_wrap_witness :
    recordFits threeMicros.expirationPeriod SuccessfulResponse 9000 5000
      (statsAt threeMicros.stats flowF) ∧
    (statsAt (ProcessPacketInfo threeMicros ⟨2, flowF, SuccessfulResponse⟩ 9000).stats
      flowF).successLatency = 7 ∧
    dnsStats.le (statsAt threeMicros.stats flowF)
      (statsAt (ProcessPacketInfo threeMicros ⟨2, flowF, SuccessfulResponse⟩ 9000).stats
        flowF) := by
  have h := (counters_monotonic_without_wrap threeMicros).1
    ⟨2, flowF, SuccessfulResponse⟩ 9000
    (fun _ start hs => by
      have h5 : start = 5000 := by
        have h0 : threeMicros.state.lookup ⟨flowF, 2⟩ = some 5000 := by decide
        rw [h0] at hs
        exact (Option.some.inj hs).symm
      rw [h5]
      decide)
    flowF
  exact ⟨by decide, by decide, h⟩

/-! ## Deletion count -/

/-- C14 (deletion count and compaction trigger).  `ProcessPacketInfo` adds 1 to the
deletion count exactly when the packet is a response (its type is not `Query`) that
finds its pending entry, and leaves the count as it is in every other case.
`removeExpiredStates` evicts `expiredCount` entries (the store shrinks by that number)
and ends with deletion count 0 when the count before plus the number of evicted entries
is at least `deleteThreshold`, and with that sum otherwise; hence with
`deleteThreshold > 0` the count is below `deleteThreshold` after every sweep. -/
theorem deletion_count_and_compaction (d : dnsStatKeeper) :
    (∀ (info : dnsPacketInfo) (ts : Time),
      (ProcessPacketInfo d info ts).deleteCount =
        if info.pktType ≠ Query ∧
            (d.state.lookup ⟨info.key, info.transactionID⟩).isSome = true
        then d.deleteCount + 1 else d.deleteCount) ∧
    (∀ earliestTs : Time,
      len (removeExpiredStates d earliestTs).state +
        (expiredCount earliestTs d.state.entries : Int) = len d.state ∧
      (removeExpiredStates d earliestTs).deleteCount =
        if d.deleteThreshold ≤ d.deleteCount + (expiredCount earliestTs d.state.entries : Int)
        then 0 else d.deleteCount + (expiredCount earliestTs d.state.entries : Int)) ∧
    (∀ earliestTs : Time, 0 < d.deleteThreshold →
      (removeExpiredStates d earliestTs).deleteCount < d.deleteThreshold) := by
  refine ⟨fun info ts => process_deleteCount d info ts, fun earliestTs => ⟨?_, ?_⟩,
    fun earliestTs hpos => ?_⟩
  · unfold len
    exact_mod_cast length_removeExpiredStates d earliestTs
  · rw [removeExpiredStates_deleteCount]
    by_cases h : d.deleteCount + (expiredCount earliestTs d.state.entries : Int) <
        d.deleteThreshold
    · rw [if_pos h, if_neg (by omega)]
    · rw [if_neg h, if_pos (by omega)]
  · rw [removeExpiredStates_deleteCount]
    split
    · assumption
    · exact hpos

/-- With `deleteThreshold = 1` a sweep that evicts query 1 of `twoPending` resets the
count to 0; with the constructor's 5000 the same sweep leaves the count at 1. -/
theorem deletion_count_and_compaction_witness :
    (0 : Int) < 1 ∧
    (removeExpiredStates { twoPending with deleteThreshold := 1 } 15).deleteCount = 0 ∧
    (removeExpiredStates { twoPending with deleteThreshold := 1 } 15).deleteCount < 1 ∧
    (removeExpiredStates twoPending 15).deleteCount = 1 ∧
    (ProcessPacketInfo twoPending ⟨1, flowF, SuccessfulResponse⟩ 30).deleteCount = 1 := by
  have h := (deletion_count_and_compaction { twoPending with deleteThreshold := 1 }).2.2 15
    (by decide)
  exact ⟨by decide, by decide, h, by decide, by decide⟩

/-! ## Agreement of the two timeout criteria, locality -/

/-- C16, as stated, fails.  In `farApart` (period the largest duration, query 1 pending
since `-5 * 10^18` ns) the tick at `5 * 10^18` ns evicts the entry, while a successful
response processed at that instant is not tallied as a timeout: `Sub` saturates at the
largest duration, which is not above the period, and the response is counted as a
success. -/
theorem timeout_criteria_agree_counterexample :
    farApart.state.lookup ⟨flowF, 1⟩ = some (-5000000000000000000) ∧
    (5000000000000000000 : Int) - (-5000000000000000000) > farApart.expirationPeriod ∧
    (tick farApart 5000000000000000000).state.lookup ⟨flowF, 1⟩ = none ∧
    statsAt (ProcessPacketInfo farApart ⟨1, flowF, SuccessfulResponse⟩
        5000000000000000000).stats flowF =
      { successfulResponses := 1, successLatency := 9223372036854775, timeouts := 0 } := by
  decide

/-- C16, amended (the two timeout criteria agree).  For an entry `(F, id)` pending since
`t0` and a time `now` such that `expirationPeriod` is below the largest duration or
`now - t0` is at most the largest duration: the tick at `now`, which sweeps with cut-off
`now - expirationPeriod`, evicts the entry if and only if `now - t0 > expirationPeriod`,
which is also exactly when a successful or failed response for `(F, id)` processed at
`now` increments `timeouts`.  Otherwise, so in particular when
`now - t0 = expirationPeriod`, the tick keeps the entry with its arrival time and the
response leaves `timeouts` alone and increments `successfulResponses` resp.
`failedResponses`. -/
theorem timeout_criteria_agree (d : dnsStatKeeper) (F : dnsKey) (id : Nat)
    (pktType : DNSPacketType) (t0 now : Time)
    (hpend : d.state.lookup ⟨F, id⟩ = some t0)
    (hresp : pktType = SuccessfulResponse ∨ pktType = FailedResponse)
    (hsat : d.expirationPeriod < maxDuration ∨ now - t0 ≤ maxDuration) :
    ((tick d now).state.lookup ⟨F, id⟩ = none ↔ now - t0 > d.expirationPeriod) ∧
    ((statsAt (ProcessPacketInfo d ⟨id, F, pktType⟩ now).stats F).timeouts =
        ((statsAt d.stats F).timeouts + 1) % 2 ^ 32 ↔ now - t0 > d.expirationPeriod) ∧
    (¬ now - t0 > d.expirationPeriod →
      (tick d now).state.lookup ⟨F, id⟩ = some t0 ∧
      (statsAt (ProcessPacketInfo d ⟨id, F, pktType⟩ now).stats F).timeouts =
        (statsAt d.stats F).timeouts ∧
      (pktType = SuccessfulResponse →
        (statsAt (ProcessPacketInfo d ⟨id, F, pktType⟩ now).stats F).successfulResponses =
          ((statsAt d.stats F).successfulResponses + 1) % 2 ^ 32) ∧
      (pktType = FailedResponse →
        (statsAt (ProcessPacketInfo d ⟨id, F, pktType⟩ now).stats F).failedResponses =
          ((statsAt d.stats F).failedResponses + 1) % 2 ^ 32)) := by
  have hne : pktType ≠ Query := by
    rcases hresp with h | h <;> rw [h] <;> decide
  have hproc := process_response_matched d ⟨id, F, pktType⟩ now t0 hne hpend
  have hstat : statsAt (ProcessPacketInfo d ⟨id, F, pktType⟩ now).stats F =
      recordResponse d.expirationPeriod pktType now t0 (statsAt d.stats F) := by
    rw [hproc, statsAt_insert]; simp
  have hcut : ∀ t : Int, t < now + -d.expirationPeriod ↔ now - t > d.expirationPeriod :=
    fun t => cutoff_iff now d.expirationPeriod t
  have hkeep : ¬ now - t0 > d.expirationPeriod →
      (tick d now).state.lookup ⟨F, id⟩ = some t0 := fun hl =>
    (removeExpiredStates_lookup d _ ⟨F, id⟩ t0).2 ⟨hpend, fun h => hl ((hcut t0).1 h)⟩
  have hwin : ¬ now - t0 > d.expirationPeriod →
      ¬ (Time.Sub now t0).val > d.expirationPeriod := fun hl =>
    Sub_val_not_gt now t0 _ hl d.expirationPeriod.property.1
  refine ⟨⟨fun hnone => ?_, fun hlate => ?_⟩, ⟨fun htm => ?_, fun hlate => ?_⟩, fun hl => ?_⟩
  · by_contra hl
    rw [hkeep hl] at hnone
    exact Option.noConfusion hnone
  · rw [tick, Option.eq_none_iff_forall_not_mem]
    intro t ht
    have h := (removeExpiredStates_lookup d _ ⟨F, id⟩ t).1 ht
    rw [hpend] at h
    have : t0 = t := Option.some.inj h.1
    exact h.2 (this ▸ (hcut t0).2 hlate)
  · by_contra hl
    rw [hstat] at htm
    have hl1 := hwin hl
    rcases hresp with h | h
    · simp only [recordResponse, hl1, h, if_true, if_false] at htm
      omega
    · have h4 : FailedResponse ≠ SuccessfulResponse := by decide
      simp only [recordResponse, hl1, h, h4, if_true, if_false] at htm
      omega
  · rw [hstat, recordResponse_late _ _ _ _ _ (Sub_val_gt now t0 _ hlate hsat)]
  · have hl1 := hwin hl
    refine ⟨hkeep hl, ?_, fun h => ?_, fun h => ?_⟩
    · rw [hstat]
      rcases hresp with h | h
      · simp only [recordResponse, hl1, h, if_true, if_false]
      · have h4 : FailedResponse ≠ SuccessfulResponse := by decide
        simp only [recordResponse, hl1, h, h4, if_true, if_false]
    · rw [hstat]
      simp only [recordResponse, hl1, h, if_true, if_false, incr32]
    · have h4 : FailedResponse ≠ SuccessfulResponse := by decide
      rw [hstat]
      simp only [recordResponse, hl1, h, h4, if_true, if_false, incr32]

/-- The boundary: with `expirationPeriod` one second and a query pending since 0, at
`now` = one second the tick keeps the entry and a successful response is counted as a
success. -/
theorem timeout_criteria_agree_witness :
    (ProcessPacketInfo (newDNSStatkeeper oneSecond) ⟨2, flowF, Query⟩ 0).state.lookup
        ⟨flowF, 2⟩ = some 0 ∧
    (ProcessPacketInfo (newDNSStatkeeper oneSecond) ⟨2, flowF, Query⟩ 0).expirationPeriod <
      maxDuration ∧
    (tick (ProcessPacketInfo (newDNSStatkeeper oneSecond) ⟨2, flowF, Query⟩ 0)
        1000000000).state.lookup ⟨flowF, 2⟩ = some 0 ∧
    (statsAt (ProcessPacketInfo
        (ProcessPacketInfo (newDNSStatkeeper oneSecond) ⟨2, flowF, Query⟩ 0)
        ⟨2, flowF, SuccessfulResponse⟩ 1000000000).stats flowF).timeouts = 0 ∧
    (statsAt (ProcessPacketInfo
        (ProcessPacketInfo (newDNSStatkeeper oneSecond) ⟨2, flowF, Query⟩ 0)
        ⟨2, flowF, SuccessfulResponse⟩ 1000000000).stats flowF).successfulResponses = 1 := by
  have h := (timeout_criteria_agree
    (ProcessPacketInfo (newDNSStatkeeper oneSecond) ⟨2, flowF, Query⟩ 0) flowF 2
    SuccessfulResponse 0 1000000000 (by decide) (Or.inl rfl) (Or.inl (by decide))).2.2
    (by decide)
  exact ⟨by decide, by decide, h.1, by rw [h.2.1]; decide, by rw [h.2.2.1 rfl]; decide⟩

/-- C17 (ingestion is local to its flow and transaction).  `ProcessPacketInfo` for a
packet of flow `info.key` with transaction `info.transactionID` leaves the statistics
entry of every other flow as it is (present with the same record, or absent), leaves
the pending entry of every other `(flow, transaction)` as it is (present with the same
arrival time, or absent), and leaves `expirationPeriod`, `maxSize` and
`deleteThreshold` unchanged. -/
theorem ingestion_is_local (d : dnsStatKeeper) (info : dnsPacketInfo) (ts : Time) :
    (∀ G : dnsKey, G ≠ info.key →
      (ProcessPacketInfo d info ts).stats.lookup G = d.stats.lookup G) ∧
    (∀ k : stateKey, k ≠ ⟨info.key, info.transactionID⟩ →
      (ProcessPacketInfo d info ts).state.lookup k = d.state.lookup k) ∧
    (ProcessPacketInfo d info ts).expirationPeriod = d.expirationPeriod ∧
    (ProcessPacketInfo d info ts).maxSize = d.maxSize ∧
    (ProcessPacketInfo d info ts).deleteThreshold = d.deleteThreshold := by
  by_cases hq : info.pktType = Query
  · by_cases hfull : len d.state = d.maxSize
    · rw [process_query_full d info ts hq hfull]
      exact ⟨fun _ _ => rfl, fun _ _ => rfl, rfl, rfl, rfl⟩
    · cases hp : d.state.lookup ⟨info.key, info.transactionID⟩ with
      | none =>
        rw [process_query_accept d info ts hq hfull hp]
        exact ⟨fun _ _ => rfl, fun k hk => AList.lookup_insert_ne hk, rfl, rfl, rfl⟩
      | some t0 =>
        rw [process_query_pending d info ts t0 hq hp]
        exact ⟨fun _ _ => rfl, fun _ _ => rfl, rfl, rfl, rfl⟩
  · cases hp : d.state.lookup ⟨info.key, info.transactionID⟩ with
    | none =>
      rw [process_response_unmatched d info ts hq hp]
      exact ⟨fun _ _ => rfl, fun _ _ => rfl, rfl, rfl, rfl⟩
    | some t0 =>
      rw [process_response_matched d info ts t0 hq hp]
      exact ⟨fun G hG => AList.lookup_insert_ne hG, fun k hk => AList.lookup_erase_ne hk,
        rfl, rfl, rfl⟩

/-- A response for transaction 1 of `flowF` leaves the pending query 2 of `flowF` in
place with its arrival time 20. -/
theorem ingestion_is_local_witness :
    (⟨flowF, 2⟩ : stateKey) ≠ ⟨flowF, 1⟩ ∧
    (ProcessPacketInfo twoPending ⟨1, flowF, SuccessfulResponse⟩ 30).state.lookup
        ⟨flowF, 2⟩ = some 20 := by
  have h := (ingestion_is_local twoPending ⟨1, flowF, SuccessfulResponse⟩ 30).2.1
    ⟨flowF, 2⟩ (by decide)
  exact ⟨by decide, by rw [h]; decide⟩

/-! ## Conservation of queries -/

/-- C15 (conservation of queries).  Let `accounted d` be the sum over all flows of
`successfulResponses + failedResponses + timeouts`, as natural numbers, plus the number
of pending entries.  A query that is accepted (store not at `maxSize`, in particular
below it, and key not pending) raises it by exactly 1; a dropped or duplicate query
leaves it unchanged; so does a successful or failed response, matched or not and
whatever its timestamp, and so does `removeExpiredStates`, as long as no incremented
count wraps.  Hence after any run of queries, responses and sweeps from the constructor
the keeper accounts for exactly the queries it accepted, as long as fewer than `2^32`
were accepted. -/
theorem conservation_of_queries (d : dnsStatKeeper) :
    (∀ (F : dnsKey) (id : Nat) (ts : Time),
      len d.state ≠ d.maxSize → d.state.lookup ⟨F, id⟩ = none →
      accounted (ProcessPacketInfo d ⟨id, F, Query⟩ ts) = accounted d + 1) ∧
    (∀ (F : dnsKey) (id : Nat) (ts : Time),
      (len d.state = d.maxSize ∨ (d.state.lookup ⟨F, id⟩).isSome = true) →
      accounted (ProcessPacketInfo d ⟨id, F, Query⟩ ts) = accounted d) ∧
    (∀ (F : dnsKey) (id : Nat) (pktType : DNSPacketType) (ts : Time),
      (pktType = SuccessfulResponse ∨ pktType = FailedResponse) →
      ((d.state.lookup ⟨F, id⟩).isSome = true → countsFit (statsAt d.stats F)) →
      accounted (ProcessPacketInfo d ⟨id, F, pktType⟩ ts) = accounted d) ∧
    (∀ earliestTs : Time,
      (∀ F : dnsKey, 0 < expiredOf earliestTs F d.state.entries →
        (statsAt d.stats F).timeouts + expiredOf earliestTs F d.state.entries < 2 ^ 32) →
      accounted (removeExpiredStates d earliestTs) = accounted d) ∧
    (∀ (timeout : Duration) (calls : List Call), (∀ c ∈ calls, c.known) →
      acceptedQueries (newDNSStatkeeper timeout) calls < 2 ^ 32 →
      accounted (runCalls (newDNSStatkeeper timeout) calls) =
        acceptedQueries (newDNSStatkeeper timeout) calls) := by
  refine ⟨fun F id ts hroom hp => accounted_query_accept d ⟨id, F, Query⟩ ts rfl hroom hp,
    fun F id ts hrej => accounted_query_reject d ⟨id, F, Query⟩ ts rfl hrej,
    fun F id pktType ts hresp hfit => accounted_response d ⟨id, F, pktType⟩ ts hresp hfit,
    fun earliestTs hfit => accounted_sweep d earliestTs hfit,
    fun timeout calls hk hbound => ?_⟩
  have h0 : accounted (newDNSStatkeeper timeout) = 0 := by
    simp [accounted, totalOutcomes, newDNSStatkeeper]
  have h := accounted_runCalls calls (newDNSStatkeeper timeout) hk (by rw [h0]; omega)
  rw [h, h0]
  omega

/-- Along `sampleRun` three queries are accepted (the second query 2 is a duplicate);
at the end one is counted as a success, one as a timeout and one is pending. -/
theorem conservation_of_queries_witness :
    (∀ c ∈ sampleRun, c.known) ∧
    acceptedQueries (newDNSStatkeeper oneSecond) sampleRun = 3 ∧
    accounted (runCalls (newDNSStatkeeper oneSecond) sampleRun) = 3 ∧
    statsAt (runCalls (newDNSStatkeeper oneSecond) sampleRun).stats flowF =
      { successfulResponses := 1, successLatency := 100000, timeouts := 1 } ∧
    (runCalls (newDNSStatkeeper oneSecond) sampleRun).state.lookup ⟨flowF, 3⟩ =
      some 3000000000 := by
  have hacc : acceptedQueries (newDNSStatkeeper oneSecond) sampleRun = 3 := by decide
  have h := (conservation_of_queries (newDNSStatkeeper oneSecond)).2.2.2.2
    oneSecond sampleRun (by decide) (by rw [hacc]; decide)
  exact ⟨by decide, hacc, by rw [h, hacc], by decide, by decide⟩

end DNSStats

namespace Metrics

/-! ## The tag assertion helper -/

theorem AssertTagsEqual_eq_true_iff (expected actual : List String) :
    AssertTagsEqual expected actual = true ↔
      expected.length = actual.length ∧ ∀ tag ∈ expected, tag ∈ actual := by
  unfold AssertTagsEqual
  by_cases h : expected.length = actual.length
  · simp [h, List.all_eq_true]
  · simp [h]

/-- Lists that are equal up to order pass the check. -/
theorem AssertTagsEqual_of_perm (expected actual : List String)
    (h : List.Perm expected actual) : AssertTagsEqual expected actual = true :=
  (AssertTagsEqual_eq_true_iff expected actual).2
    ⟨h.length_eq, fun _ ht => h.mem_iff.1 ht⟩

/-- When no tag occurs twice in `expected`, lists that pass the check are equal up to
order. -/
theorem perm_of_AssertTagsEqual_of_nodup (expected actual : List String)
    (hnd : expected.Nodup) (h : AssertTagsEqual expected actual = true) :
    List.Perm expected actual := by
  obtain ⟨hlen, hsub⟩ := (AssertTagsEqual_eq_true_iff expected actual).1 h
  exact (List.subperm_of_subset hnd hsub).perm_of_length_le (le_of_eq hlen.symm)

/-- C12 fails on the code when a tag occurs more than once: `expected = ["a", "a"]` and
`actual = ["a", "b"]` have the same length and every element of `expected` is contained
in `actual`, so no assertion of `AssertTagsEqual` fails, although the two lists are not
equal up to order. -/
theorem AssertTagsEqual_accepts_unequal_tags :
    AssertTagsEqual ["a", "a"] ["a", "b"] = true ∧
    ¬ List.Perm ["a", "a"] ["a", "b"] := by
  decide

end Metrics
